import Mathlib

/-!
Shallow embedding of the SN76489 PSG emulator (go-chip-sn76489):
`sn76489.go` (state machine, write-port decoder, clock prescaler, tone and
noise generators, mixer, resampler) and `serialize.go` (40-byte snapshot).

Modelling conventions:
* Go `uint16`/`uint8` fields are `Nat`. No masking is inserted where the Go
  code performs none; the reachable-state invariants proved below show the
  values stay inside the machine ranges, so the `Nat` semantics coincide
  with the Go semantics on every reachable state.
* Go fixed-size arrays (`[3]uint16`, `[4]uint8`, the per-channel sample
  buffers) are `List`s; `List.set` is a no-op out of range exactly like the
  guarded writes in the source, and every write in the source is in range.
* `clocksPerSample`, `clockCounter` and `gain` are `float64`/`float32` in
  Go; they are modelled as `ℚ`.  All claims settled here either do not
  depend on rounding (the values involved are small dyadic rationals, on
  which IEEE arithmetic is exact) or are quantified so that rounding is
  irrelevant.
* The 16-entry `volumeTable` of `float32` amplitudes is an abstract
  parameter `vt : Nat → ℚ`; the entries at indices 0 and 15 are exactly
  1.0 and 0.0 in the source (`math.Pow(10,0)` and a literal), which is all
  the concrete theorems below use.  `vtW` is one concrete table sharing the
  properties of the real one that matter here (vtW 0 = 1, vtW 15 = 0,
  strictly decreasing, nonnegative).
* The `float64` bit-pattern codec used for `clockCounter` in the snapshot
  (`math.Float64bits` / `math.Float64frombits`, exact mutual inverses) is
  abstracted as a parameter pair `enc : ℚ → List Nat` / `dec : List Nat → ℚ`
  with the inverse property as a hypothesis; `encQ`/`decQ` below are a
  concrete instance.
* `serialize.go` names the captured noise output field `noiseOutput`; the
  struct in `sn76489.go` declares it as `noiseOut` (offset 21 of the blob,
  `noise_out` in the spec).  The model uses `noiseOut` throughout.
-/

namespace Chip

/-- ToneZero controls how a tone register value of 0 is handled
(`sn76489.go`, type `ToneZero`). -/
inductive ToneZero where
  | asOne : ToneZero
  | as1024 : ToneZero
deriving DecidableEq

/-- Chip variant configuration (`sn76489.go`, type `Config`). -/
structure Config where
  LFSRBits : Nat
  WhiteNoiseTaps : Nat
  toneZero : ToneZero
deriving DecidableEq

/-- The Sega variant (`sn76489.go`, var `Sega`). -/
def Sega : Config := { LFSRBits := 16, WhiteNoiseTaps := 0x0009, toneZero := ToneZero.asOne }

/-- The TI variant (`sn76489.go`, var `TI`). -/
def TI : Config := { LFSRBits := 15, WhiteNoiseTaps := 0x0003, toneZero := ToneZero.as1024 }

/-- Rational addition, written out through `mkRat` so that the kernel can
evaluate it (the `Rat` arithmetic instances are irreducible); proved equal
to `+` in `qadd_eq` below. -/
def qadd (a b : ℚ) : ℚ := mkRat (a.num * b.den + b.num * a.den) (a.den * b.den)

/-- Rational subtraction through `mkRat`; proved equal to `-` in `qsub_eq`. -/
def qsub (a b : ℚ) : ℚ := mkRat (a.num * b.den - b.num * a.den) (a.den * b.den)

/-- Rational multiplication through `mkRat`; proved equal to `*` in `qmul_eq`. -/
def qmul (a b : ℚ) : ℚ := mkRat (a.num * b.num) (a.den * b.den)

/-- Mutable state of the emulator (`sn76489.go`, struct `SN76489`).
`bufferSize` is the common length of `mixBuffer` and the four
`channelBuffers` (the Go code tests `bufferPos < len(mixBuffer)`).
The `mixBuffer` contents are recomputed on demand by `GetBuffer` and
are not part of any claim, so they are not tracked. -/
structure SN76489 where
  toneReg : List Nat
  toneCounter : List Nat
  toneOutput : List Bool
  noiseReg : Nat
  noiseCounter : Nat
  noiseShift : Nat
  noiseToggle : Bool
  noiseOut : Bool
  volume : List Nat
  latchedChannel : Nat
  latchedType : Nat
  feedbackShift : Nat
  lfsrInitial : Nat
  whiteNoiseTaps : Nat
  toneZeroValue : Nat
  clocksPerSample : ℚ
  clockCounter : ℚ
  clockDivider : Int
  gain : ℚ
  channelBuffers : List (List ℚ)
  bufferPos : Nat
  bufferSize : Nat
deriving DecidableEq

/-- Constructor (`sn76489.go`, func `New`). -/
def New (clockFreq sampleRate bufferSize : Nat) (config : Config) : SN76489 :=
  let fb := config.LFSRBits - 1
  let initShift := 1 <<< fb
  { toneReg := [0, 0, 0]
    toneCounter := [0, 0, 0]
    toneOutput := [false, false, false]
    noiseReg := 0
    noiseCounter := 0
    noiseShift := initShift
    noiseToggle := false
    noiseOut := false
    volume := [0x0F, 0x0F, 0x0F, 0x0F]
    latchedChannel := 0
    latchedType := 0
    feedbackShift := fb
    lfsrInitial := initShift
    whiteNoiseTaps := config.WhiteNoiseTaps
    toneZeroValue := if config.toneZero = ToneZero.as1024 then 1024 else 1
    clocksPerSample := mkRat clockFreq sampleRate
    clockCounter := 0
    clockDivider := 0
    gain := mkRat 1 4
    channelBuffers :=
      [List.replicate bufferSize 0, List.replicate bufferSize 0,
       List.replicate bufferSize 0, List.replicate bufferSize 0]
    bufferPos := 0
    bufferSize := bufferSize }

/-- Power-on reset, gain preserved (`sn76489.go`, func `Reset`). -/
def Reset (s : SN76489) : SN76489 :=
  { s with
    toneReg := [0, 0, 0]
    toneCounter := [0, 0, 0]
    toneOutput := [false, false, false]
    noiseReg := 0
    noiseCounter := 0
    noiseShift := s.lfsrInitial
    noiseToggle := false
    noiseOut := false
    volume := [0x0F, 0x0F, 0x0F, 0x0F]
    latchedChannel := 0
    latchedType := 0
    clockDivider := 0
    clockCounter := 0
    bufferPos := 0 }

/-- Write-port decoder (`sn76489.go`, func `Write`). -/
def Write (s : SN76489) (value : Nat) : SN76489 :=
  if value &&& 0x80 ≠ 0 then
    let ch := value >>> 5 &&& 0x03
    let ty := value >>> 4 &&& 0x01
    let data := value &&& 0x0F
    let s1 := { s with latchedChannel := ch, latchedType := ty }
    if ty = 1 then
      { s1 with volume := s1.volume.set ch data }
    else if ch < 3 then
      { s1 with toneReg := s1.toneReg.set ch ((s1.toneReg.getD ch 0 &&& 0x3F0) ||| data) }
    else
      { s1 with noiseReg := data &&& 0x07, noiseShift := s1.lfsrInitial }
  else
    if s.latchedType = 0 then
      if s.latchedChannel < 3 then
        let data := value &&& 0x3F
        let nv := (s.toneReg.getD s.latchedChannel 0 &&& 0x0F) ||| (data <<< 4)
        { s with toneReg := s.toneReg.set s.latchedChannel nv }
      else
        { s with noiseReg := value &&& 0x07, noiseShift := s.lfsrInitial }
    else s

/-- One LFSR shift, white or periodic mode (`sn76489.go`, the feedback
computation and `(noiseShift >> 1) | feedback` inside func `Clock`). -/
def lfsrShift (whiteMode : Bool) (taps fb shift : Nat) : Nat :=
  let feedback :=
    if whiteMode then
      let t1 := shift &&& taps
      let t2 := t1 ^^^ (t1 >>> 8)
      let t3 := t2 ^^^ (t2 >>> 4)
      let t4 := t3 ^^^ (t3 >>> 2)
      let t5 := t4 ^^^ (t4 >>> 1)
      (t5 &&& 1) <<< fb
    else
      (shift &&& 1) <<< fb
  (shift >>> 1) ||| feedback

/-- One internal tick of tone channel `i` (`sn76489.go`, the tone loop body
inside func `Clock`). -/
def clockTone (i : Nat) (s : SN76489) : SN76489 :=
  let c := s.toneCounter.getD i 0
  if 0 < c then
    { s with toneCounter := s.toneCounter.set i (c - 1) }
  else
    let r := s.toneReg.getD i 0
    let reload := if r = 0 then s.toneZeroValue else r
    { s with
      toneCounter := s.toneCounter.set i reload
      toneOutput := s.toneOutput.set i (!(s.toneOutput.getD i false)) }

/-- One internal tick of the noise channel (`sn76489.go`, the noise section
of func `Clock`). -/
def clockNoise (s : SN76489) : SN76489 :=
  if 0 < s.noiseCounter then
    { s with noiseCounter := s.noiseCounter - 1 }
  else
    let rate := s.noiseReg &&& 0x03
    let r2 := s.toneReg.getD 2 0
    let reload :=
      if rate = 0 then 0x10
      else if rate = 1 then 0x20
      else if rate = 2 then 0x40
      else if r2 = 0 then s.toneZeroValue else r2
    let t := !s.noiseToggle
    if t then
      { s with
        noiseCounter := reload
        noiseToggle := t
        noiseOut := (s.noiseShift &&& 1) != 0
        noiseShift := lfsrShift ((s.noiseReg &&& 0x04) != 0) s.whiteNoiseTaps s.feedbackShift s.noiseShift }
    else
      { s with noiseCounter := reload, noiseToggle := t }

/-- One input clock (`sn76489.go`, func `Clock`): divide-by-16 prescaler,
then one internal tick of the three tone channels and the noise channel. -/
def Clock (s : SN76489) : SN76489 :=
  if s.clockDivider + 1 < 16 then
    { s with clockDivider := s.clockDivider + 1 }
  else
    clockNoise (clockTone 2 (clockTone 1 (clockTone 0 { s with clockDivider := 0 })))

/-- `n` input clocks. -/
def clockN (n : Nat) (s : SN76489) : SN76489 := Clock^[n] s

/-- Point-in-time unipolar mix (`sn76489.go`, func `Sample`), with the
volume table passed as the parameter `vt`. -/
def Sample (vt : Nat → ℚ) (s : SN76489) : ℚ :=
  let a0 : ℚ := if s.toneOutput.getD 0 false then vt (s.volume.getD 0 0) else 0
  let a1 : ℚ := if s.toneOutput.getD 1 false then vt (s.volume.getD 1 0) else 0
  let a2 : ℚ := if s.toneOutput.getD 2 false then vt (s.volume.getD 2 0) else 0
  let a3 : ℚ := if s.noiseOut then vt (s.volume.getD 3 0) else 0
  qmul (qadd (qadd (qadd a0 a1) a2) a3) s.gain

/-- Reset buffer position (`sn76489.go`, func `ResetBuffer`). -/
def ResetBuffer (s : SN76489) : SN76489 := { s with bufferPos := 0 }

/-- One iteration of the loop in `Run` (`sn76489.go`): one clock, resampler
accumulator update, and possibly one sample emission (second component is
the number of samples dropped in this iteration, 0 or 1). -/
def runStep (vt : Nat → ℚ) (s : SN76489) : SN76489 × Nat :=
  let s1 := Clock s
  let s2 := { s1 with clockCounter := qadd s1.clockCounter 1 }
  if s2.clocksPerSample ≤ s2.clockCounter then
    let s3 := { s2 with clockCounter := qsub s2.clockCounter s2.clocksPerSample }
    if s3.bufferPos < s3.bufferSize then
      let e0 : ℚ := if s3.toneOutput.getD 0 false then vt (s3.volume.getD 0 0) else 0
      let e1 : ℚ := if s3.toneOutput.getD 1 false then vt (s3.volume.getD 1 0) else 0
      let e2 : ℚ := if s3.toneOutput.getD 2 false then vt (s3.volume.getD 2 0) else 0
      let e3 : ℚ := if s3.noiseOut then vt (s3.volume.getD 3 0) else 0
      let cb0 := s3.channelBuffers
      let cb1 := cb0.set 0 ((cb0.getD 0 []).set s3.bufferPos e0)
      let cb2 := cb1.set 1 ((cb1.getD 1 []).set s3.bufferPos e1)
      let cb3 := cb2.set 2 ((cb2.getD 2 []).set s3.bufferPos e2)
      let cb4 := cb3.set 3 ((cb3.getD 3 []).set s3.bufferPos e3)
      ({ s3 with channelBuffers := cb4, bufferPos := s3.bufferPos + 1 }, 0)
    else
      (s3, 1)
  else
    (s2, 0)

/-- Advance `clocks` input clocks accumulating samples (`sn76489.go`,
func `Run`); second component is the dropped-sample count. -/
def Run (vt : Nat → ℚ) : SN76489 → Nat → SN76489 × Nat
  | s, 0 => (s, 0)
  | s, n + 1 =>
    let p := runStep vt s
    let q := Run vt p.fst n
    (q.fst, p.snd + q.snd)

/-- `GenerateSamples` (`sn76489.go`): reset the buffer then run. -/
def GenerateSamples (vt : Nat → ℚ) (s : SN76489) (clocks : Nat) : SN76489 × Nat :=
  Run vt (ResetBuffer s) clocks

/-- `SetGain` (`sn76489.go`). -/
def SetGain (g : ℚ) (s : SN76489) : SN76489 := { s with gain := g }

/-- `boolByte` (`serialize.go`). -/
def boolByte (b : Bool) : Nat := if b then 1 else 0

/-- Little-endian `uint16` bytes (`binary.LittleEndian.PutUint16`). -/
def u16le (x : Nat) : List Nat := [x % 256, x / 256 % 256]

/-- Little-endian `uint32` bytes (`binary.LittleEndian.PutUint32`). -/
def u32le (x : Nat) : List Nat := [x % 256, x / 256 % 256, x / 65536 % 256, x / 16777216 % 256]

/-- Errors returned by `Deserialize` (`serialize.go` returns `errors.New`
values; modelled as an enumeration). -/
inductive SnapErr where
  | bufferTooSmall : SnapErr
  | unsupportedVersion : SnapErr
deriving DecidableEq

/-- The 40-byte snapshot (`serialize.go`, func `Serialize`).  The Go
function writes into a caller buffer after a length check; the model
returns the bytes written.  `enc` stands for `math.Float64bits` followed
by `PutUint64` (8 bytes) applied to `clockCounter`.  The Go source reads
the offset-21 field as `s.noiseOutput`; the struct declares it `noiseOut`. -/
def Serialize (enc : ℚ → List Nat) (s : SN76489) : List Nat :=
  1 ::
  (u16le (s.toneReg.getD 0 0) ++ u16le (s.toneReg.getD 1 0) ++ u16le (s.toneReg.getD 2 0) ++
   u16le (s.toneCounter.getD 0 0) ++ u16le (s.toneCounter.getD 1 0) ++ u16le (s.toneCounter.getD 2 0) ++
   [boolByte (s.toneOutput.getD 0 false), boolByte (s.toneOutput.getD 1 false),
    boolByte (s.toneOutput.getD 2 false), s.noiseReg] ++
   u16le s.noiseCounter ++ u16le s.noiseShift ++
   [boolByte s.noiseOut,
    s.volume.getD 0 0, s.volume.getD 1 0, s.volume.getD 2 0, s.volume.getD 3 0,
    s.latchedChannel, s.latchedType] ++
   u32le (s.clockDivider % 4294967296).toNat ++
   enc s.clockCounter)

/-- Restore state from a snapshot (`serialize.go`, func `Deserialize`).
Returns the (possibly unchanged) state together with the error, mirroring
the in-place mutation of the Go method: on error the state is returned
untouched.  `dec` stands for `Uint64` followed by `math.Float64frombits`. -/
def Deserialize (dec : List Nat → ℚ) (s : SN76489) (buf : List Nat) : SN76489 × Option SnapErr :=
  if buf.length < 40 then (s, some SnapErr.bufferTooSmall)
  else if buf.getD 0 0 ≠ 1 then (s, some SnapErr.unsupportedVersion)
  else
    let b : Nat → Nat := fun i => buf.getD i 0
    let w : Nat → Nat := fun i => b i + 256 * b (i + 1)
    let u := b 28 + 256 * b 29 + 65536 * b 30 + 16777216 * b 31
    ({ s with
        toneReg := [w 1, w 3, w 5]
        toneCounter := [w 7, w 9, w 11]
        toneOutput := [b 13 != 0, b 14 != 0, b 15 != 0]
        noiseReg := b 16
        noiseCounter := w 17
        noiseShift := w 19
        noiseOut := b 21 != 0
        volume := [b 22, b 23, b 24, b 25]
        latchedChannel := b 26
        latchedType := b 27
        clockDivider := if u < 2147483648 then (u : Int) else (u : Int) - 4294967296
        clockCounter := dec [b 32, b 33, b 34, b 35, b 36, b 37, b 38, b 39]
        bufferPos := 0 }, none)

/-- A concrete instance of the abstract `clockCounter` byte codec: an
injective encoding of `ℚ` into 8 entries.  It plays the role the exact
bijection `math.Float64bits`/`math.Float64frombits` plays in the source. -/
def encQ (x : ℚ) : List Nat := [x.num.natAbs, if x.num < 0 then 1 else 0, x.den, 0, 0, 0, 0, 0]

/-- Decoder inverse to `encQ`. -/
def decQ (l : List Nat) : ℚ :=
  mkRat (if l.getD 1 0 = 1 then -(l.getD 0 0 : Int) else (l.getD 0 0 : Int)) (l.getD 2 0)

/-- A concrete stand-in for the 16-entry `volumeTable` of `sn76489.go`,
sharing the properties of the real table used by the theorems below:
entry 0 is exactly 1.0, entry 15 is exactly 0.0 (both exact in the
source: `math.Pow(10, 0)` and a literal), entries strictly decrease and
are nonnegative.  Out-of-range indices (impossible on reachable states,
see the volume invariant) are mapped to 0. -/
def vtW (i : Nat) : ℚ := if 15 ≤ i then 0 else mkRat (15 - i : Nat) 15

/-- Script operations for replaying a fixed call sequence on two states. -/
inductive ScriptOp where
  | clockOp : ScriptOp
  | writeOp : Nat → ScriptOp
  | runOp : Nat → ScriptOp

/-- Run a fixed script of `Clock`/`Write`/`Run` calls. -/
def runScript (vt : Nat → ℚ) (ops : List ScriptOp) (s : SN76489) : SN76489 :=
  ops.foldl
    (fun t op =>
      match op with
      | ScriptOp.clockOp => Clock t
      | ScriptOp.writeOp b => Write t b
      | ScriptOp.runOp n => (Run vt t n).fst)
    s

/-- Samples observed after each of `n` successive internal ticks (16 input
clocks per tick), as in the repository's golden test helper. -/
def sampleTicks (vt : Nat → ℚ) (s : SN76489) : Nat → List ℚ
  | 0 => []
  | n + 1 =>
    let t := clockN 16 s
    Sample vt t :: sampleTicks vt t n

/-- Scenario state for spec §8 scenario 1: Sega variant, clock 3579545,
sample rate 48000, gain 1.0, writes `0x84 0x00 0x90`. -/
def c2State : SN76489 :=
  SetGain 1 (Write (Write (Write (New 3579545 48000 1 Sega) 0x84) 0x00) 0x90)

/-- State of `c2State` after 8 internal ticks (128 input clocks), an
evaluation checkpoint. -/
def c2Mid : SN76489 :=
  { toneReg := [4, 0, 0], toneCounter := [2, 0, 0], toneOutput := [false, false, false]
    noiseReg := 0, noiseCounter := 9, noiseShift := 16384, noiseToggle := true, noiseOut := false
    volume := [0, 15, 15, 15], latchedChannel := 0, latchedType := 1
    feedbackShift := 15, lfsrInitial := 32768, whiteNoiseTaps := 9, toneZeroValue := 1
    clocksPerSample := mkRat 715909 9600, clockCounter := 0, clockDivider := 0, gain := 1
    channelBuffers := [[0], [0], [0], [0]], bufferPos := 0, bufferSize := 1 }

/-- Base state of the serialization counterexample: fresh Sega engine with
clock 16, sample rate 1 (one sample per internal tick), buffer capacity 2,
after writes `0xF0` (noise volume to maximum) and `0xE3` (periodic noise
clocked from tone 2, whose register is 0, so the noise counter reloads
with 1). -/
def c1Base : SN76489 := Write (Write (New 16 1 2 Sega) 0xF0) 0xE3

/-- The counterexample state: `c1Base` after 912 input clocks (57 internal
ticks) — reachable from `New` by writes and clocks alone.  At this point
15 LFSR shifts have happened, `noiseShift = 1`, and `noiseToggle = true`,
so the 16th shift (which captures output bit 1) is due on the very next
toggle rising edge. -/
def c1S : SN76489 := clockN 912 c1Base

/-- `c1S` reloaded through `Serialize`/`Deserialize` into a fresh engine
with the same construction parameters. -/
def c1Sload : SN76489 := (Deserialize decQ (New 16 1 2 Sega) (Serialize encQ c1S)).fst

/-- Evaluation checkpoint: `c1Base` after 112 clocks. -/
def c1T1 : SN76489 :=
  { toneReg := [0, 0, 0], toneCounter := [1, 1, 1], toneOutput := [false, false, false]
    noiseReg := 3, noiseCounter := 1, noiseShift := 8192, noiseToggle := false, noiseOut := false
    volume := [15, 15, 15, 0], latchedChannel := 3, latchedType := 0
    feedbackShift := 15, lfsrInitial := 32768, whiteNoiseTaps := 9, toneZeroValue := 1
    clocksPerSample := 16, clockCounter := 0, clockDivider := 0, gain := mkRat 1 4
    channelBuffers := [[0, 0], [0, 0], [0, 0], [0, 0]], bufferPos := 0, bufferSize := 2 }

/-- Evaluation checkpoint: `c1Base` after 224 clocks. -/
def c1T2 : SN76489 :=
  { toneReg := [0, 0, 0], toneCounter := [0, 0, 0], toneOutput := [true, true, true]
    noiseReg := 3, noiseCounter := 0, noiseShift := 2048, noiseToggle := true, noiseOut := false
    volume := [15, 15, 15, 0], latchedChannel := 3, latchedType := 0
    feedbackShift := 15, lfsrInitial := 32768, whiteNoiseTaps := 9, toneZeroValue := 1
    clocksPerSample := 16, clockCounter := 0, clockDivider := 0, gain := mkRat 1 4
    channelBuffers := [[0, 0], [0, 0], [0, 0], [0, 0]], bufferPos := 0, bufferSize := 2 }

/-- Evaluation checkpoint: `c1Base` after 336 clocks. -/
def c1T3 : SN76489 :=
  { toneReg := [0, 0, 0], toneCounter := [1, 1, 1], toneOutput := [true, true, true]
    noiseReg := 3, noiseCounter := 1, noiseShift := 512, noiseToggle := true, noiseOut := false
    volume := [15, 15, 15, 0], latchedChannel := 3, latchedType := 0
    feedbackShift := 15, lfsrInitial := 32768, whiteNoiseTaps := 9, toneZeroValue := 1
    clocksPerSample := 16, clockCounter := 0, clockDivider := 0, gain := mkRat 1 4
    channelBuffers := [[0, 0], [0, 0], [0, 0], [0, 0]], bufferPos := 0, bufferSize := 2 }

/-- Evaluation checkpoint: `c1Base` after 448 clocks. -/
def c1T4 : SN76489 :=
  { toneReg := [0, 0, 0], toneCounter := [0, 0, 0], toneOutput := [false, false, false]
    noiseReg := 3, noiseCounter := 0, noiseShift := 256, noiseToggle := false, noiseOut := false
    volume := [15, 15, 15, 0], latchedChannel := 3, latchedType := 0
    feedbackShift := 15, lfsrInitial := 32768, whiteNoiseTaps := 9, toneZeroValue := 1
    clocksPerSample := 16, clockCounter := 0, clockDivider := 0, gain := mkRat 1 4
    channelBuffers := [[0, 0], [0, 0], [0, 0], [0, 0]], bufferPos := 0, bufferSize := 2 }

/-- Evaluation checkpoint: `c1Base` after 560 clocks. -/
def c1T5 : SN76489 :=
  { toneReg := [0, 0, 0], toneCounter := [1, 1, 1], toneOutput := [false, false, false]
    noiseReg := 3, noiseCounter := 1, noiseShift := 64, noiseToggle := false, noiseOut := false
    volume := [15, 15, 15, 0], latchedChannel := 3, latchedType := 0
    feedbackShift := 15, lfsrInitial := 32768, whiteNoiseTaps := 9, toneZeroValue := 1
    clocksPerSample := 16, clockCounter := 0, clockDivider := 0, gain := mkRat 1 4
    channelBuffers := [[0, 0], [0, 0], [0, 0], [0, 0]], bufferPos := 0, bufferSize := 2 }

/-- Evaluation checkpoint: `c1Base` after 672 clocks. -/
def c1T6 : SN76489 :=
  { toneReg := [0, 0, 0], toneCounter := [0, 0, 0], toneOutput := [true, true, true]
    noiseReg := 3, noiseCounter := 0, noiseShift := 16, noiseToggle := true, noiseOut := false
    volume := [15, 15, 15, 0], latchedChannel := 3, latchedType := 0
    feedbackShift := 15, lfsrInitial := 32768, whiteNoiseTaps := 9, toneZeroValue := 1
    clocksPerSample := 16, clockCounter := 0, clockDivider := 0, gain := mkRat 1 4
    channelBuffers := [[0, 0], [0, 0], [0, 0], [0, 0]], bufferPos := 0, bufferSize := 2 }

/-- Evaluation checkpoint: `c1Base` after 784 clocks. -/
def c1T7 : SN76489 :=
  { toneReg := [0, 0, 0], toneCounter := [1, 1, 1], toneOutput := [true, true, true]
    noiseReg := 3, noiseCounter := 1, noiseShift := 4, noiseToggle := true, noiseOut := false
    volume := [15, 15, 15, 0], latchedChannel := 3, latchedType := 0
    feedbackShift := 15, lfsrInitial := 32768, whiteNoiseTaps := 9, toneZeroValue := 1
    clocksPerSample := 16, clockCounter := 0, clockDivider := 0, gain := mkRat 1 4
    channelBuffers := [[0, 0], [0, 0], [0, 0], [0, 0]], bufferPos := 0, bufferSize := 2 }

/-- Evaluation checkpoint: `c1Base` after 896 clocks. -/
def c1T8 : SN76489 :=
  { toneReg := [0, 0, 0], toneCounter := [0, 0, 0], toneOutput := [false, false, false]
    noiseReg := 3, noiseCounter := 0, noiseShift := 2, noiseToggle := false, noiseOut := false
    volume := [15, 15, 15, 0], latchedChannel := 3, latchedType := 0
    feedbackShift := 15, lfsrInitial := 32768, whiteNoiseTaps := 9, toneZeroValue := 1
    clocksPerSample := 16, clockCounter := 0, clockDivider := 0, gain := mkRat 1 4
    channelBuffers := [[0, 0], [0, 0], [0, 0], [0, 0]], bufferPos := 0, bufferSize := 2 }

/-- Evaluation checkpoint: `c1Base` after 912 clocks (this is `c1S`). -/
def c1T9 : SN76489 :=
  { toneReg := [0, 0, 0], toneCounter := [1, 1, 1], toneOutput := [true, true, true]
    noiseReg := 3, noiseCounter := 1, noiseShift := 1, noiseToggle := true, noiseOut := false
    volume := [15, 15, 15, 0], latchedChannel := 3, latchedType := 0
    feedbackShift := 15, lfsrInitial := 32768, whiteNoiseTaps := 9, toneZeroValue := 1
    clocksPerSample := 16, clockCounter := 0, clockDivider := 0, gain := mkRat 1 4
    channelBuffers := [[0, 0], [0, 0], [0, 0], [0, 0]], bufferPos := 0, bufferSize := 2 }

/-- The state obtained by loading the snapshot of `c1S` into a fresh
engine: identical to `c1S` except that `noiseToggle` is back to `false`,
because the 40-byte snapshot does not carry it. -/
def c1T9load : SN76489 := { c1T9 with noiseToggle := false }

/-- C8 counterexample state: tone register 0 loaded with `0x3FF`, the
counter reloaded to `0x3FF` by one internal tick, then the register's low
nibble rewritten to 0 (register becomes `0x3F0`) while the counter keeps
its old value. -/
def c8S : SN76489 := Write (clockN 16 (Write (Write (New 16 1 2 Sega) 0x8F) 0x3F)) 0x80

/-- States reachable from `New` (or a later `Reset`) using only the
write port and the input clock — the reachable set quantified over by the
LFSR and serialization claims.  `Write`'s byte argument is left
unrestricted: the Go parameter is a `uint8` (values below 256), and the
decoder masks every field it extracts, so the invariants hold for the
whole `Nat` domain. -/
inductive ReachableWC (cfg : Config) (cf sr bs : Nat) : SN76489 → Prop where
  | base : ReachableWC cfg cf sr bs (New cf sr bs cfg)
  | write : ∀ {s : SN76489} (b : Nat), ReachableWC cfg cf sr bs s →
      ReachableWC cfg cf sr bs (Write s b)
  | clock : ∀ {s : SN76489}, ReachableWC cfg cf sr bs s → ReachableWC cfg cf sr bs (Clock s)
  | reset : ∀ {s : SN76489}, ReachableWC cfg cf sr bs s → ReachableWC cfg cf sr bs (Reset s)

/-- States reachable from `New` (or a later `Reset`) by any sequence of
`Write`, `Clock`, `ResetBuffer`, `Run`, `GenerateSamples` and `SetGain`
calls — everything except `Deserialize`.  `vt` is the (single, fixed)
volume table used by every `Run`. -/
inductive Reachable (vt : Nat → ℚ) (cfg : Config) (cf sr bs : Nat) : SN76489 → Prop where
  | base : Reachable vt cfg cf sr bs (New cf sr bs cfg)
  | write : ∀ {s : SN76489} (b : Nat), Reachable vt cfg cf sr bs s →
      Reachable vt cfg cf sr bs (Write s b)
  | clock : ∀ {s : SN76489}, Reachable vt cfg cf sr bs s → Reachable vt cfg cf sr bs (Clock s)
  | reset : ∀ {s : SN76489}, Reachable vt cfg cf sr bs s → Reachable vt cfg cf sr bs (Reset s)
  | resetBuffer : ∀ {s : SN76489}, Reachable vt cfg cf sr bs s →
      Reachable vt cfg cf sr bs (ResetBuffer s)
  | run : ∀ {s : SN76489} (n : Nat), Reachable vt cfg cf sr bs s →
      Reachable vt cfg cf sr bs (Run vt s n).fst
  | generateSamples : ∀ {s : SN76489} (n : Nat), Reachable vt cfg cf sr bs s →
      Reachable vt cfg cf sr bs (GenerateSamples vt s n).fst
  | setGain : ∀ {s : SN76489} (g : ℚ), Reachable vt cfg cf sr bs s →
      Reachable vt cfg cf sr bs (SetGain g s)

/-- Structural bounds maintained by every reachable state, independent of
the chip variant. -/
structure InvB (s : SN76489) : Prop where
  regLen : s.toneReg.length = 3
  ctrLen : s.toneCounter.length = 3
  outLen : s.toneOutput.length = 3
  volLen : s.volume.length = 4
  regBound : ∀ i, s.toneReg.getD i 0 ≤ 0x3FF
  ctrBound : ∀ i, s.toneCounter.getD i 0 ≤ max 0x3FF s.toneZeroValue
  nregBound : s.noiseReg ≤ 7
  nctrBound : s.noiseCounter ≤ max 0x3FF s.toneZeroValue
  volBound : ∀ i, s.volume.getD i 0 ≤ 15
  latchChBound : s.latchedChannel ≤ 3
  latchTyBound : s.latchedType ≤ 1
  divLo : 0 ≤ s.clockDivider
  divHi : s.clockDivider < 16

/-- The variant-derived fields hold the values computed by `New` and never
change afterwards. -/
structure InvCfg (cfg : Config) (s : SN76489) : Prop where
  fb : s.feedbackShift = cfg.LFSRBits - 1
  initShift : s.lfsrInitial = 2 ^ (cfg.LFSRBits - 1)
  taps : s.whiteNoiseTaps = cfg.WhiteNoiseTaps
  tzv : s.toneZeroValue = (if cfg.toneZero = ToneZero.as1024 then 1024 else 1)

/-- The facts about a variant configuration the LFSR invariant needs: the
tap mask includes bit 0 and the register has at least one bit.  Both
predefined variants satisfy it. -/
def GoodCfg (cfg : Config) : Prop := cfg.WhiteNoiseTaps % 2 = 1 ∧ 1 ≤ cfg.LFSRBits

/-- The LFSR stays nonzero and inside its configured width. -/
structure InvShift (cfg : Config) (s : SN76489) : Prop where
  lo : 1 ≤ s.noiseShift
  hi : s.noiseShift < 2 ^ cfg.LFSRBits

/-- Extra facts that hold for every state reachable by writes and clocks
alone: the resampler and the output buffers are still in their initial
configuration, and the gain is the default. -/
structure InvWC (cf sr bs : Nat) (s : SN76489) : Prop where
  cc : s.clockCounter = 0
  pos : s.bufferPos = 0
  gainEq : s.gain = mkRat 1 4
  cps : s.clocksPerSample = mkRat cf sr
  bufs : s.channelBuffers =
    [List.replicate bs 0, List.replicate bs 0, List.replicate bs 0, List.replicate bs 0]
  size : s.bufferSize = bs

set_option maxRecDepth 100000
set_option maxHeartbeats 2000000

/-- Iterating input clocks splits additively. -/
theorem clockN_add (m n : Nat) (s : SN76489) : clockN (m + n) s = clockN m (clockN n s) :=
  Function.iterate_add_apply Clock m n s

/-- Tick-sample sequences split additively. -/
theorem sampleTicks_add (vt : Nat → ℚ) (m n : Nat) (s : SN76489) :
    sampleTicks vt s (m + n) = sampleTicks vt s m ++ sampleTicks vt (clockN (16 * m) s) n := by
  induction m generalizing s with
  | zero =>
    have h0 : clockN 0 s = s := rfl
    simp [sampleTicks, h0]
  | succ m ih =>
    have h1 : m + 1 + n = (m + n) + 1 := by omega
    have h2 : clockN (16 * m) (clockN 16 s) = clockN (16 * (m + 1)) s := by
      rw [show 16 * (m + 1) = 16 * m + 16 by ring, clockN_add]
    rw [h1]
    simp only [sampleTicks]
    rw [ih, h2]
    rfl

/-- Checkpoint chain for evaluating `c1S`. -/
theorem c1S_eval : c1S = c1T9 := by
  have h1 : clockN 112 c1Base = c1T1 := by decide
  have h2 : clockN 224 c1Base = c1T2 := by
    rw [show (224 : Nat) = 112 + 112 from rfl, clockN_add, h1]; decide
  have h3 : clockN 336 c1Base = c1T3 := by
    rw [show (336 : Nat) = 112 + 224 from rfl, clockN_add, h2]; decide
  have h4 : clockN 448 c1Base = c1T4 := by
    rw [show (448 : Nat) = 112 + 336 from rfl, clockN_add, h3]; decide
  have h5 : clockN 560 c1Base = c1T5 := by
    rw [show (560 : Nat) = 112 + 448 from rfl, clockN_add, h4]; decide
  have h6 : clockN 672 c1Base = c1T6 := by
    rw [show (672 : Nat) = 112 + 560 from rfl, clockN_add, h5]; decide
  have h7 : clockN 784 c1Base = c1T7 := by
    rw [show (784 : Nat) = 112 + 672 from rfl, clockN_add, h6]; decide
  have h8 : clockN 896 c1Base = c1T8 := by
    rw [show (896 : Nat) = 112 + 784 from rfl, clockN_add, h7]; decide
  show clockN 912 c1Base = c1T9
  rw [show (912 : Nat) = 16 + 896 from rfl, clockN_add, h8]; decide

/-- C1 counterexample: the state `c1S` is reachable from `New` by two
writes and 912 clocks; serializing it and loading the snapshot into a
fresh engine with the same parameters succeeds, yet the script
`[Run 32]` produces different per-channel buffers on the two states (the
noise channel emits its first high sample one LFSR period earlier on the
loaded engine, because `noiseToggle` is not serialized and restarts
`false`).  This refutes the round-trip claim as stated. -/
theorem c1_counterexample :
    (Deserialize decQ (New 16 1 2 Sega) (Serialize encQ c1S)).snd = none ∧
    c1S.noiseToggle = true ∧
    (runScript vtW [ScriptOp.runOp 32] c1Sload).channelBuffers ≠
      (runScript vtW [ScriptOp.runOp 32] c1S).channelBuffers := by
  have h := c1S_eval
  have h2 : (Deserialize decQ (New 16 1 2 Sega) (Serialize encQ c1T9)).fst = c1T9load := by
    decide
  refine ⟨?_, ?_, ?_⟩
  · rw [h]; decide
  · rw [h]; decide
  · simp only [c1Sload]
    rw [h, h2]; decide

/-- C2: the code's own behaviour at the scenario input.  With the Sega
variant, writes `0x84 0x00 0x90` and gain 1, sampling after each of 16
internal ticks yields five high samples then five low (half-period
`toneReg + 1 = 5`), not the claimed four-and-four (half-period 4): the
counter is reloaded with `toneReg` and a tick is consumed reaching 0
before the toggle tick.  The repository's own golden tests
(`TestGolden_SingleToneChannel`, `TestGolden_FrequencyAccuracy`) and the
spec both require the four-and-four sequence, so this is a divergence of
the code from its own tests. -/
theorem c2_code_divergence :
    sampleTicks vtW c2State 16 = [1, 1, 1, 1, 1, 0, 0, 0, 0, 0, 1, 1, 1, 1, 1, 0] ∧
    ([1, 1, 1, 1, 1, 0, 0, 0, 0, 0, 1, 1, 1, 1, 1, 0] : List ℚ) ≠
      [1, 1, 1, 1, 0, 0, 0, 0, 1, 1, 1, 1, 0, 0, 0, 0] := by
  constructor
  · have hmid : clockN 128 c2State = c2Mid := by decide
    rw [show (16 : Nat) = 8 + 8 from rfl, sampleTicks_add]
    rw [show (16 * 8 : Nat) = 128 from rfl, hmid]
    decide
  · decide

/-- C3: frame-splitting additivity of `Run` — the state (hence the
per-channel buffers and the buffer position) after `Run a; Run b` equals
the state after `Run (a+b)`, for any starting state. -/
theorem run_add (vt : Nat → ℚ) (a b : Nat) (s : SN76489) :
    (Run vt (Run vt s a).fst b).fst = (Run vt s (a + b)).fst := by
  induction a generalizing s with
  | zero => simp [Run]
  | succ a ih =>
    have h1 : a + 1 + b = (a + b) + 1 := by omega
    rw [h1]
    show (Run vt (Run vt (runStep vt s).fst a).fst b).fst = (Run vt (runStep vt s).fst (a + b)).fst
    exact ih (runStep vt s).fst

/-- C3: for all non-negative clock counts `a` and `b`, the four
per-channel buffers and the buffer position after
`ResetBuffer; Run a; Run b` are identical to those after
`ResetBuffer; Run (a+b)`, with no write in between. -/
theorem c3_frame_split_additivity (vt : Nat → ℚ) (s : SN76489) (a b : Nat) :
    (Run vt (Run vt (ResetBuffer s) a).fst b).fst.channelBuffers =
      (Run vt (ResetBuffer s) (a + b)).fst.channelBuffers ∧
    (Run vt (Run vt (ResetBuffer s) a).fst b).fst.bufferPos =
      (Run vt (ResetBuffer s) (a + b)).fst.bufferPos := by
  rw [run_add vt a b (ResetBuffer s)]
  exact ⟨rfl, rfl⟩

/-- C5: in periodic-noise mode the LFSR shift map of the code, started at
`lfsr_initial`, first returns to `lfsr_initial` after exactly 16 shifts on
the Sega variant (16-bit LFSR) and exactly 15 on the TI variant (15-bit
LFSR). -/
theorem c5_periodic_noise_period :
    ((lfsrShift false (New 1 1 0 Sega).whiteNoiseTaps (New 1 1 0 Sega).feedbackShift)^[16]
        (New 1 1 0 Sega).lfsrInitial = (New 1 1 0 Sega).lfsrInitial ∧
      ∀ k < 16, 0 < k →
        (lfsrShift false (New 1 1 0 Sega).whiteNoiseTaps (New 1 1 0 Sega).feedbackShift)^[k]
          (New 1 1 0 Sega).lfsrInitial ≠ (New 1 1 0 Sega).lfsrInitial) ∧
    ((lfsrShift false (New 1 1 0 TI).whiteNoiseTaps (New 1 1 0 TI).feedbackShift)^[15]
        (New 1 1 0 TI).lfsrInitial = (New 1 1 0 TI).lfsrInitial ∧
      ∀ k < 15, 0 < k →
        (lfsrShift false (New 1 1 0 TI).whiteNoiseTaps (New 1 1 0 TI).feedbackShift)^[k]
          (New 1 1 0 TI).lfsrInitial ≠ (New 1 1 0 TI).lfsrInitial) := by
  decide

/-- `List.set` then `List.getD`, fully characterized. -/
theorem getD_set (l : List α) (i j : Nat) (v d : α) :
    (l.set i v).getD j d = if i = j ∧ j < l.length then v else l.getD j d := by
  induction l generalizing i j with
  | nil => simp
  | cons a t ih =>
    cases i with
    | zero =>
      cases j with
      | zero => simp
      | succ j => simp
    | succ i =>
      cases j with
      | zero => simp [List.set]
      | succ j =>
        simp only [List.set, List.getD_cons_succ, List.length_cons, ih i j]
        by_cases hij : i = j
        · subst hij
          by_cases hl : i < t.length
          · rw [if_pos ⟨rfl, hl⟩, if_pos ⟨rfl, by omega⟩]
          · rw [if_neg (by omega), if_neg (by omega)]
        · rw [if_neg (by omega), if_neg (by omega)]

/-- A pointwise bound survives a `List.set` with a bounded value. -/
theorem getD_set_bound (P : α → Prop) {l : List α} {v d : α} (i : Nat)
    (hl : ∀ j, P (l.getD j d)) (hv : P v) : ∀ j, P ((l.set i v).getD j d) := by
  intro j
  rw [getD_set]
  by_cases h : i = j ∧ j < l.length
  · rw [if_pos h]; exact hv
  · rw [if_neg h]; exact hl j

/-- One LFSR shift keeps the register nonzero and inside `fb + 1` bits,
provided bit 0 is tapped. -/
theorem lfsrShift_bounds (m : Bool) (taps fb x : Nat)
    (ht : taps % 2 = 1) (hx1 : 1 ≤ x) (hx2 : x < 2 ^ (fb + 1)) :
    1 ≤ lfsrShift m taps fb x ∧ lfsrShift m taps fb x < 2 ^ (fb + 1) := by
  have hp1 : 1 ≤ 2 ^ fb := Nat.one_le_two_pow
  have hpow : (2 : Nat) ^ (fb + 1) = 2 * 2 ^ fb := by rw [pow_succ]; ring
  -- the feedback bit, as a number in {0, 1}
  have key : ∀ e : Nat, e ≤ 1 → (x = 1 → e = 1) →
      1 ≤ (x >>> 1) ||| (e <<< fb) ∧ (x >>> 1) ||| (e <<< fb) < 2 ^ (fb + 1) := by
    intro e he h1
    have hdiv : x >>> 1 = x / 2 := Nat.shiftRight_eq_div_pow x 1
    have hsl : e <<< fb = 2 ^ fb * e := by rw [Nat.shiftLeft_eq]; ring
    have hlt : x / 2 < 2 ^ fb := by omega
    have hor : (x >>> 1) ||| (e <<< fb) = 2 ^ fb * e + x / 2 := by
      rw [hdiv, hsl, Nat.lor_comm, ← Nat.mul_add_lt_is_or hlt e]
    rw [hor]
    rcases Nat.le_one_iff_eq_zero_or_eq_one.mp he with rfl | rfl
    · have hx : 2 ≤ x := by
        rcases Nat.lt_or_ge x 2 with hx | hx
        · exact absurd (h1 (by omega)) (by omega)
        · exact hx
      omega
    · omega
  unfold lfsrShift
  by_cases hm : m = true
  · rw [hm]
    simp only [if_pos rfl]
    apply key
    · exact Nat.and_le_right
    · intro hx1'
      subst hx1'
      have h1t : 1 &&& taps = 1 := by
        rw [Nat.and_comm, Nat.and_one_is_mod, ht]
      rw [h1t]
      decide
  · rw [eq_false_of_ne_true hm]
    simp only [Bool.false_eq_true, if_false]
    apply key
    · exact Nat.and_le_right
    · intro hx1'
      subst hx1'
      rw [Nat.and_one_is_mod]

/-- `Write` preserves the structural bounds. -/
theorem invB_write (s : SN76489) (h : InvB s) (b : Nat) : InvB (Write s b) := by
  have hdata15 : b &&& 0x0F ≤ 15 := Nat.and_le_right
  have hch3 : b >>> 5 &&& 0x03 ≤ 3 := Nat.and_le_right
  have hty1 : b >>> 4 &&& 0x01 ≤ 1 := Nat.and_le_right
  simp only [Write]
  split_ifs with h1 h2 h3 h4 h5
  · -- latch byte, volume write
    exact
      { regLen := h.regLen, ctrLen := h.ctrLen, outLen := h.outLen
        volLen := by simp [h.volLen]
        regBound := h.regBound, ctrBound := h.ctrBound
        nregBound := h.nregBound, nctrBound := h.nctrBound
        volBound := getD_set_bound (fun x => x ≤ 15) _ h.volBound hdata15
        latchChBound := hch3, latchTyBound := hty1
        divLo := h.divLo, divHi := h.divHi }
  · -- latch byte, tone low-nibble write
    have hv : ∀ j, (s.toneReg.getD j 0 &&& 0x3F0) ||| (b &&& 0x0F) ≤ 0x3FF := by
      intro j
      have ha : (s.toneReg.getD j 0 &&& 0x3F0) < 2 ^ 10 :=
        lt_of_le_of_lt Nat.and_le_right (by norm_num)
      have hb : (b &&& 0x0F) < 2 ^ 10 := lt_of_le_of_lt Nat.and_le_right (by norm_num)
      have := Nat.or_lt_two_pow ha hb
      omega
    exact
      { regLen := by simp [h.regLen], ctrLen := h.ctrLen, outLen := h.outLen
        volLen := h.volLen
        regBound := getD_set_bound (fun x => x ≤ 0x3FF) _ h.regBound (hv _)
        ctrBound := h.ctrBound
        nregBound := h.nregBound, nctrBound := h.nctrBound
        volBound := h.volBound
        latchChBound := hch3, latchTyBound := hty1
        divLo := h.divLo, divHi := h.divHi }
  · -- latch byte, noise control write
    exact
      { regLen := h.regLen, ctrLen := h.ctrLen, outLen := h.outLen, volLen := h.volLen
        regBound := h.regBound, ctrBound := h.ctrBound
        nregBound := Nat.and_le_right
        nctrBound := h.nctrBound, volBound := h.volBound
        latchChBound := hch3, latchTyBound := hty1
        divLo := h.divLo, divHi := h.divHi }
  · -- data byte, tone high-bits write
    have hv : (s.toneReg.getD s.latchedChannel 0 &&& 0x0F) ||| ((b &&& 0x3F) <<< 4) ≤ 0x3FF := by
      have ha : (s.toneReg.getD s.latchedChannel 0 &&& 0x0F) < 2 ^ 10 :=
        lt_of_le_of_lt Nat.and_le_right (by norm_num)
      have hb : ((b &&& 0x3F) <<< 4) < 2 ^ 10 := by
        rw [Nat.shiftLeft_eq]
        have : b &&& 0x3F ≤ 63 := Nat.and_le_right
        have h16 : (2 : Nat) ^ 4 = 16 := by norm_num
        rw [h16]
        omega
      have := Nat.or_lt_two_pow ha hb
      omega
    exact
      { regLen := by simp [h.regLen], ctrLen := h.ctrLen, outLen := h.outLen
        volLen := h.volLen
        regBound := getD_set_bound (fun x => x ≤ 0x3FF) _ h.regBound hv
        ctrBound := h.ctrBound
        nregBound := h.nregBound, nctrBound := h.nctrBound
        volBound := h.volBound
        latchChBound := h.latchChBound, latchTyBound := h.latchTyBound
        divLo := h.divLo, divHi := h.divHi }
  · -- data byte, noise control write
    exact
      { regLen := h.regLen, ctrLen := h.ctrLen, outLen := h.outLen, volLen := h.volLen
        regBound := h.regBound, ctrBound := h.ctrBound
        nregBound := Nat.and_le_right
        nctrBound := h.nctrBound, volBound := h.volBound
        latchChBound := h.latchChBound, latchTyBound := h.latchTyBound
        divLo := h.divLo, divHi := h.divHi }
  · -- data byte ignored
    exact h

/-- `Write` leaves the variant-derived fields unchanged. -/
theorem invCfg_write (cfg : Config) (s : SN76489) (h : InvCfg cfg s) (b : Nat) :
    InvCfg cfg (Write s b) := by
  simp only [Write]
  split_ifs <;> exact { fb := h.fb, initShift := h.initShift, taps := h.taps, tzv := h.tzv }

/-- `Write` keeps the LFSR in range: it either leaves it alone or resets
it to `lfsr_initial`. -/
theorem invShift_write (cfg : Config) (s : SN76489) (hg : GoodCfg cfg)
    (hc : InvCfg cfg s) (h : InvShift cfg s) (b : Nat) : InvShift cfg (Write s b) := by
  obtain ⟨hgt, hgb⟩ := hg
  have hinit : 1 ≤ s.lfsrInitial ∧ s.lfsrInitial < 2 ^ cfg.LFSRBits := by
    rw [hc.initShift]
    exact ⟨Nat.one_le_two_pow, Nat.pow_lt_pow_right (by norm_num) (by omega)⟩
  simp only [Write]
  split_ifs with h1 h2 h3 h4 h5
  · exact { lo := h.lo, hi := h.hi }
  · exact { lo := h.lo, hi := h.hi }
  · exact { lo := hinit.1, hi := hinit.2 }
  · exact { lo := h.lo, hi := h.hi }
  · exact { lo := hinit.1, hi := hinit.2 }
  · exact { lo := h.lo, hi := h.hi }

/-- `clockTone` preserves the structural bounds. -/
theorem invB_clockTone (i : Nat) (s : SN76489) (h : InvB s) : InvB (clockTone i s) := by
  have hmax1 : (0x3FF : Nat) ≤ max 0x3FF s.toneZeroValue := le_max_left _ _
  have hmax2 : s.toneZeroValue ≤ max 0x3FF s.toneZeroValue := le_max_right _ _
  simp only [clockTone]
  split_ifs with hc hr
  · exact
      { regLen := h.regLen
        ctrLen := by simp [h.ctrLen]
        outLen := h.outLen, volLen := h.volLen
        regBound := h.regBound
        ctrBound := getD_set_bound (fun x => x ≤ max 0x3FF s.toneZeroValue) i h.ctrBound
          (le_trans (Nat.sub_le _ _) (h.ctrBound i))
        nregBound := h.nregBound, nctrBound := h.nctrBound, volBound := h.volBound
        latchChBound := h.latchChBound, latchTyBound := h.latchTyBound
        divLo := h.divLo, divHi := h.divHi }
  · exact
      { regLen := h.regLen
        ctrLen := by simp [h.ctrLen]
        outLen := by simp [h.outLen]
        volLen := h.volLen
        regBound := h.regBound
        ctrBound := getD_set_bound (fun x => x ≤ max 0x3FF s.toneZeroValue) i h.ctrBound hmax2
        nregBound := h.nregBound, nctrBound := h.nctrBound, volBound := h.volBound
        latchChBound := h.latchChBound, latchTyBound := h.latchTyBound
        divLo := h.divLo, divHi := h.divHi }
  · exact
      { regLen := h.regLen
        ctrLen := by simp [h.ctrLen]
        outLen := by simp [h.outLen]
        volLen := h.volLen
        regBound := h.regBound
        ctrBound := getD_set_bound (fun x => x ≤ max 0x3FF s.toneZeroValue) i h.ctrBound
          (le_trans (h.regBound i) hmax1)
        nregBound := h.nregBound, nctrBound := h.nctrBound, volBound := h.volBound
        latchChBound := h.latchChBound, latchTyBound := h.latchTyBound
        divLo := h.divLo, divHi := h.divHi }

/-- `clockTone` does not touch the variant fields. -/
theorem invCfg_clockTone (cfg : Config) (i : Nat) (s : SN76489) (h : InvCfg cfg s) :
    InvCfg cfg (clockTone i s) := by
  simp only [clockTone]
  split_ifs <;> exact { fb := h.fb, initShift := h.initShift, taps := h.taps, tzv := h.tzv }

/-- `clockTone` does not touch the LFSR. -/
theorem invShift_clockTone (cfg : Config) (i : Nat) (s : SN76489) (h : InvShift cfg s) :
    InvShift cfg (clockTone i s) := by
  simp only [clockTone]
  split_ifs <;> exact { lo := h.lo, hi := h.hi }

/-- `clockNoise` preserves the structural bounds. -/
theorem invB_clockNoise (s : SN76489) (h : InvB s) : InvB (clockNoise s) := by
  have hmax1 : (0x3FF : Nat) ≤ max 0x3FF s.toneZeroValue := le_max_left _ _
  have hmax2 : s.toneZeroValue ≤ max 0x3FF s.toneZeroValue := le_max_right _ _
  have h16 : (0x10 : Nat) ≤ 0x3FF := by norm_num
  have h20 : (0x20 : Nat) ≤ 0x3FF := by norm_num
  have h40 : (0x40 : Nat) ≤ 0x3FF := by norm_num
  simp only [clockNoise]
  split_ifs <;>
    refine
      { regLen := h.regLen, ctrLen := h.ctrLen, outLen := h.outLen, volLen := h.volLen
        regBound := h.regBound, ctrBound := h.ctrBound
        nregBound := h.nregBound
        nctrBound := ?_
        volBound := h.volBound
        latchChBound := h.latchChBound, latchTyBound := h.latchTyBound
        divLo := h.divLo, divHi := h.divHi } <;>
    first
      | exact le_trans (Nat.sub_le _ _) h.nctrBound
      | exact le_trans h16 hmax1
      | exact le_trans h20 hmax1
      | exact le_trans h40 hmax1
      | exact hmax2
      | exact le_trans (h.regBound 2) hmax1

/-- `clockNoise` does not touch the variant fields. -/
theorem invCfg_clockNoise (cfg : Config) (s : SN76489) (h : InvCfg cfg s) :
    InvCfg cfg (clockNoise s) := by
  simp only [clockNoise]
  split_ifs <;> exact { fb := h.fb, initShift := h.initShift, taps := h.taps, tzv := h.tzv }

/-- `clockNoise` keeps the LFSR in range: on a toggle rising edge it
applies one `lfsrShift`, otherwise it leaves the register alone. -/
theorem invShift_clockNoise (cfg : Config) (s : SN76489) (hg : GoodCfg cfg)
    (hc : InvCfg cfg s) (h : InvShift cfg s) : InvShift cfg (clockNoise s) := by
  obtain ⟨hgt, hgb⟩ := hg
  have hfb : s.feedbackShift + 1 = cfg.LFSRBits := by
    rw [hc.fb]; omega
  have hx2 : s.noiseShift < 2 ^ (s.feedbackShift + 1) := by
    rw [hfb]; exact h.hi
  have hsh := lfsrShift_bounds ((s.noiseReg &&& 0x04) != 0) s.whiteNoiseTaps s.feedbackShift
    s.noiseShift (by rw [hc.taps]; exact hgt) h.lo hx2
  simp only [clockNoise]
  split_ifs <;>
    first
      | exact { lo := h.lo, hi := h.hi }
      | exact { lo := hsh.1, hi := by rw [← hfb]; exact hsh.2 }

/-- `Clock` preserves the structural bounds. -/
theorem invB_clock (s : SN76489) (h : InvB s) : InvB (Clock s) := by
  simp only [Clock]
  split_ifs with hd
  · exact
      { regLen := h.regLen, ctrLen := h.ctrLen, outLen := h.outLen, volLen := h.volLen
        regBound := h.regBound, ctrBound := h.ctrBound
        nregBound := h.nregBound, nctrBound := h.nctrBound, volBound := h.volBound
        latchChBound := h.latchChBound, latchTyBound := h.latchTyBound
        divLo := by
          have := h.divLo
          show (0 : Int) ≤ s.clockDivider + 1
          omega
        divHi := hd }
  · apply invB_clockNoise
    apply invB_clockTone
    apply invB_clockTone
    apply invB_clockTone
    exact
      { regLen := h.regLen, ctrLen := h.ctrLen, outLen := h.outLen, volLen := h.volLen
        regBound := h.regBound, ctrBound := h.ctrBound
        nregBound := h.nregBound, nctrBound := h.nctrBound, volBound := h.volBound
        latchChBound := h.latchChBound, latchTyBound := h.latchTyBound
        divLo := by show (0 : Int) ≤ 0; norm_num
        divHi := by show (0 : Int) < 16; norm_num }

/-- `Clock` does not touch the variant fields. -/
theorem invCfg_clock (cfg : Config) (s : SN76489) (h : InvCfg cfg s) :
    InvCfg cfg (Clock s) := by
  simp only [Clock]
  split_ifs
  · exact { fb := h.fb, initShift := h.initShift, taps := h.taps, tzv := h.tzv }
  · apply invCfg_clockNoise
    apply invCfg_clockTone
    apply invCfg_clockTone
    apply invCfg_clockTone
    exact { fb := h.fb, initShift := h.initShift, taps := h.taps, tzv := h.tzv }

/-- `Clock` keeps the LFSR in range. -/
theorem invShift_clock (cfg : Config) (s : SN76489) (hg : GoodCfg cfg)
    (hc : InvCfg cfg s) (h : InvShift cfg s) : InvShift cfg (Clock s) := by
  simp only [Clock]
  split_ifs
  · exact { lo := h.lo, hi := h.hi }
  · apply invShift_clockNoise cfg _ hg
    · apply invCfg_clockTone
      apply invCfg_clockTone
      apply invCfg_clockTone
      exact { fb := hc.fb, initShift := hc.initShift, taps := hc.taps, tzv := hc.tzv }
    · apply invShift_clockTone
      apply invShift_clockTone
      apply invShift_clockTone
      exact { lo := h.lo, hi := h.hi }

/-- One `Run` iteration only changes `Clock`-affected fields plus the
resampler bookkeeping, which the structural bounds ignore. -/
theorem invB_runStep (vt : Nat → ℚ) (s : SN76489) (h : InvB s) : InvB ((runStep vt s).fst) := by
  have hc := invB_clock s h
  simp only [runStep]
  split_ifs <;>
    exact
      { regLen := hc.regLen, ctrLen := hc.ctrLen, outLen := hc.outLen, volLen := hc.volLen
        regBound := hc.regBound, ctrBound := hc.ctrBound
        nregBound := hc.nregBound, nctrBound := hc.nctrBound, volBound := hc.volBound
        latchChBound := hc.latchChBound, latchTyBound := hc.latchTyBound
        divLo := hc.divLo, divHi := hc.divHi }

/-- As `invB_runStep`, for the variant fields. -/
theorem invCfg_runStep (vt : Nat → ℚ) (cfg : Config) (s : SN76489) (h : InvCfg cfg s) :
    InvCfg cfg ((runStep vt s).fst) := by
  have hc := invCfg_clock cfg s h
  simp only [runStep]
  split_ifs <;>
    exact { fb := hc.fb, initShift := hc.initShift, taps := hc.taps, tzv := hc.tzv }

/-- As `invB_runStep`, for the LFSR bounds. -/
theorem invShift_runStep (vt : Nat → ℚ) (cfg : Config) (s : SN76489) (hg : GoodCfg cfg)
    (hcfg : InvCfg cfg s) (h : InvShift cfg s) : InvShift cfg ((runStep vt s).fst) := by
  have hc := invShift_clock cfg s hg hcfg h
  simp only [runStep]
  split_ifs <;> exact { lo := hc.lo, hi := hc.hi }

/-- `Run` preserves the structural bounds. -/
theorem invB_run (vt : Nat → ℚ) (n : Nat) (s : SN76489) (h : InvB s) :
    InvB ((Run vt s n).fst) := by
  induction n generalizing s with
  | zero => exact h
  | succ n ih =>
    show InvB ((Run vt (runStep vt s).fst n).fst)
    exact ih _ (invB_runStep vt s h)

/-- `Run` preserves the variant fields. -/
theorem invCfg_run (vt : Nat → ℚ) (cfg : Config) (n : Nat) (s : SN76489) (h : InvCfg cfg s) :
    InvCfg cfg ((Run vt s n).fst) := by
  induction n generalizing s with
  | zero => exact h
  | succ n ih =>
    show InvCfg cfg ((Run vt (runStep vt s).fst n).fst)
    exact ih _ (invCfg_runStep vt cfg s h)

/-- `Run` preserves the LFSR bounds. -/
theorem invShift_run (vt : Nat → ℚ) (cfg : Config) (n : Nat) (s : SN76489) (hg : GoodCfg cfg)
    (hcfg : InvCfg cfg s) (h : InvShift cfg s) : InvShift cfg ((Run vt s n).fst) := by
  induction n generalizing s with
  | zero => exact h
  | succ n ih =>
    show InvShift cfg ((Run vt (runStep vt s).fst n).fst)
    exact ih _ (invCfg_runStep vt cfg s hcfg) (invShift_runStep vt cfg s hg hcfg h)

/-- The fresh engine satisfies the structural bounds. -/
theorem invB_new (cf sr bs : Nat) (cfg : Config) : InvB (New cf sr bs cfg) := by
  refine
    { regLen := rfl, ctrLen := rfl, outLen := rfl, volLen := rfl
      regBound := ?_, ctrBound := ?_
      nregBound := by norm_num [New]
      nctrBound := by norm_num [New]
      volBound := ?_
      latchChBound := by norm_num [New]
      latchTyBound := by norm_num [New]
      divLo := by norm_num [New]
      divHi := by norm_num [New] } <;>
    intro i <;>
    simp only [New] <;>
    match i with
    | 0 => norm_num
    | 1 => norm_num
    | 2 => norm_num
    | 3 => norm_num
    | (j + 4) => simp [List.getD]

/-- The fresh engine has the advertised variant fields. -/
theorem invCfg_new (cf sr bs : Nat) (cfg : Config) : InvCfg cfg (New cf sr bs cfg) :=
  { fb := rfl
    initShift := by simp only [New, Nat.one_shiftLeft]
    taps := rfl
    tzv := rfl }

/-- The fresh engine's LFSR is `lfsr_initial`, in range. -/
theorem invShift_new (cf sr bs : Nat) (cfg : Config) (hg : GoodCfg cfg) :
    InvShift cfg (New cf sr bs cfg) := by
  obtain ⟨hgt, hgb⟩ := hg
  constructor
  · show 1 ≤ 1 <<< (cfg.LFSRBits - 1)
    rw [Nat.one_shiftLeft]
    exact Nat.one_le_two_pow
  · show 1 <<< (cfg.LFSRBits - 1) < 2 ^ cfg.LFSRBits
    rw [Nat.one_shiftLeft]
    exact Nat.pow_lt_pow_right (by norm_num) (by omega)

/-- `Reset` re-establishes all three invariants. -/
theorem invB_reset (s : SN76489) (h : InvB s) : InvB (Reset s) :=
  { regLen := rfl, ctrLen := rfl, outLen := rfl, volLen := rfl
    regBound := by
      intro i
      match i with
      | 0 => norm_num [Reset]
      | 1 => norm_num [Reset]
      | 2 => norm_num [Reset]
      | (j + 3) => simp [Reset, List.getD]
    ctrBound := by
      intro i
      match i with
      | 0 => norm_num [Reset]
      | 1 => norm_num [Reset]
      | 2 => norm_num [Reset]
      | (j + 3) => simp [Reset, List.getD]
    nregBound := by norm_num [Reset]
    nctrBound := by norm_num [Reset]
    volBound := by
      intro i
      match i with
      | 0 => norm_num [Reset]
      | 1 => norm_num [Reset]
      | 2 => norm_num [Reset]
      | 3 => norm_num [Reset]
      | (j + 4) => simp [Reset, List.getD]
    latchChBound := by norm_num [Reset]
    latchTyBound := by norm_num [Reset]
    divLo := by norm_num [Reset]
    divHi := by norm_num [Reset] }

/-- `Reset` keeps the variant fields. -/
theorem invCfg_reset (cfg : Config) (s : SN76489) (h : InvCfg cfg s) : InvCfg cfg (Reset s) :=
  { fb := h.fb, initShift := h.initShift, taps := h.taps, tzv := h.tzv }

/-- `Reset` restores the LFSR to `lfsr_initial`, in range. -/
theorem invShift_reset (cfg : Config) (s : SN76489) (hg : GoodCfg cfg) (hc : InvCfg cfg s) :
    InvShift cfg (Reset s) := by
  obtain ⟨hgt, hgb⟩ := hg
  constructor
  · show 1 ≤ s.lfsrInitial
    rw [hc.initShift]
    exact Nat.one_le_two_pow
  · show s.lfsrInitial < 2 ^ cfg.LFSRBits
    rw [hc.initShift]
    exact Nat.pow_lt_pow_right (by norm_num) (by omega)

/-- Every reachable state satisfies the structural bounds. -/
theorem reachable_invB (vt : Nat → ℚ) (cfg : Config) (cf sr bs : Nat) (s : SN76489)
    (h : Reachable vt cfg cf sr bs s) : InvB s := by
  induction h with
  | base => exact invB_new cf sr bs cfg
  | write b _ ih => exact invB_write _ ih b
  | clock _ ih => exact invB_clock _ ih
  | reset _ ih => exact invB_reset _ ih
  | resetBuffer _ ih =>
    exact
      { regLen := ih.regLen, ctrLen := ih.ctrLen, outLen := ih.outLen, volLen := ih.volLen
        regBound := ih.regBound, ctrBound := ih.ctrBound
        nregBound := ih.nregBound, nctrBound := ih.nctrBound, volBound := ih.volBound
        latchChBound := ih.latchChBound, latchTyBound := ih.latchTyBound
        divLo := ih.divLo, divHi := ih.divHi }
  | run n _ ih => exact invB_run vt n _ ih
  | generateSamples n _ ih =>
    exact invB_run vt n _
      { regLen := ih.regLen, ctrLen := ih.ctrLen, outLen := ih.outLen, volLen := ih.volLen
        regBound := ih.regBound, ctrBound := ih.ctrBound
        nregBound := ih.nregBound, nctrBound := ih.nctrBound, volBound := ih.volBound
        latchChBound := ih.latchChBound, latchTyBound := ih.latchTyBound
        divLo := ih.divLo, divHi := ih.divHi }
  | setGain g _ ih =>
    exact
      { regLen := ih.regLen, ctrLen := ih.ctrLen, outLen := ih.outLen, volLen := ih.volLen
        regBound := ih.regBound, ctrBound := ih.ctrBound
        nregBound := ih.nregBound, nctrBound := ih.nctrBound, volBound := ih.volBound
        latchChBound := ih.latchChBound, latchTyBound := ih.latchTyBound
        divLo := ih.divLo, divHi := ih.divHi }

/-- Every reachable state keeps the variant fields of `New`. -/
theorem reachable_invCfg (vt : Nat → ℚ) (cfg : Config) (cf sr bs : Nat) (s : SN76489)
    (h : Reachable vt cfg cf sr bs s) : InvCfg cfg s := by
  induction h with
  | base => exact invCfg_new cf sr bs cfg
  | write b _ ih => exact invCfg_write cfg _ ih b
  | clock _ ih => exact invCfg_clock cfg _ ih
  | reset _ ih => exact invCfg_reset cfg _ ih
  | resetBuffer _ ih => exact { fb := ih.fb, initShift := ih.initShift, taps := ih.taps, tzv := ih.tzv }
  | run n _ ih => exact invCfg_run vt cfg n _ ih
  | generateSamples n _ ih =>
    exact invCfg_run vt cfg n _ { fb := ih.fb, initShift := ih.initShift, taps := ih.taps, tzv := ih.tzv }
  | setGain g _ ih => exact { fb := ih.fb, initShift := ih.initShift, taps := ih.taps, tzv := ih.tzv }

/-- Every reachable state keeps the LFSR nonzero and inside its width,
for any variant with bit 0 tapped. -/
theorem reachable_invShift (vt : Nat → ℚ) (cfg : Config) (cf sr bs : Nat) (s : SN76489)
    (hg : GoodCfg cfg) (h : Reachable vt cfg cf sr bs s) : InvShift cfg s := by
  have hcfg := reachable_invCfg vt cfg cf sr bs s h
  clear hcfg
  induction h with
  | base => exact invShift_new cf sr bs cfg hg
  | write b hr ih => exact invShift_write cfg _ hg (reachable_invCfg vt cfg cf sr bs _ hr) ih b
  | clock hr ih => exact invShift_clock cfg _ hg (reachable_invCfg vt cfg cf sr bs _ hr) ih
  | reset hr ih => exact invShift_reset cfg _ hg (reachable_invCfg vt cfg cf sr bs _ hr)
  | resetBuffer _ ih => exact { lo := ih.lo, hi := ih.hi }
  | run n hr ih => exact invShift_run vt cfg n _ hg (reachable_invCfg vt cfg cf sr bs _ hr) ih
  | generateSamples n hr ih =>
    have hc := reachable_invCfg vt cfg cf sr bs _ hr
    exact invShift_run vt cfg n _ hg
      { fb := hc.fb, initShift := hc.initShift, taps := hc.taps, tzv := hc.tzv }
      { lo := ih.lo, hi := ih.hi }
  | setGain g _ ih => exact { lo := ih.lo, hi := ih.hi }

/-- Write-and-clock reachability is included in general reachability. -/
theorem reachableWC_subset (vt : Nat → ℚ) (cfg : Config) (cf sr bs : Nat) (s : SN76489)
    (h : ReachableWC cfg cf sr bs s) : Reachable vt cfg cf sr bs s := by
  induction h with
  | base => exact Reachable.base
  | write b _ ih => exact Reachable.write b ih
  | clock _ ih => exact Reachable.clock ih
  | reset _ ih => exact Reachable.reset ih

/-- `qadd` agrees with rational addition. -/
theorem qadd_eq (a b : ℚ) : qadd a b = a + b := by
  unfold qadd
  rw [Rat.mkRat_eq_div]
  have ha : (a.den : ℚ) ≠ 0 := by exact_mod_cast a.den_nz
  have hb : (b.den : ℚ) ≠ 0 := by exact_mod_cast b.den_nz
  conv_rhs => rw [← Rat.num_div_den a, ← Rat.num_div_den b]
  push_cast
  field_simp

/-- `qsub` agrees with rational subtraction. -/
theorem qsub_eq (a b : ℚ) : qsub a b = a - b := by
  unfold qsub
  rw [Rat.mkRat_eq_div]
  have ha : (a.den : ℚ) ≠ 0 := by exact_mod_cast a.den_nz
  have hb : (b.den : ℚ) ≠ 0 := by exact_mod_cast b.den_nz
  conv_rhs => rw [← Rat.num_div_den a, ← Rat.num_div_den b]
  push_cast
  field_simp
  ring

/-- `qmul` agrees with rational multiplication. -/
theorem qmul_eq (a b : ℚ) : qmul a b = a * b := by
  unfold qmul
  rw [Rat.mkRat_eq_div]
  have ha : (a.den : ℚ) ≠ 0 := by exact_mod_cast a.den_nz
  have hb : (b.den : ℚ) ≠ 0 := by exact_mod_cast b.den_nz
  conv_rhs => rw [← Rat.num_div_den a, ← Rat.num_div_den b]
  push_cast
  field_simp

/-- `mkRat`, as used for `clocksPerSample` in `New`, is exactly the
division `clockFreq / sampleRate` in `ℚ`. -/
theorem mkRat_div (cf sr : Nat) : mkRat cf sr = (cf : ℚ) / (sr : ℚ) := by
  rw [Rat.mkRat_eq_div]
  push_cast
  ring

/-- C4: for every state reachable from `New` (or `Reset`) by writes and
clocks, the LFSR is never zero; it stays within `[1, 0xFFFF]` on the Sega
variant and within `[1, 0x7FFF]` on the TI variant. -/
theorem c4_lfsr_bounds (cf sr bs : Nat) (s : SN76489) :
    (ReachableWC Sega cf sr bs s → 1 ≤ s.noiseShift ∧ s.noiseShift ≤ 0xFFFF) ∧
    (ReachableWC TI cf sr bs s → 1 ≤ s.noiseShift ∧ s.noiseShift ≤ 0x7FFF) := by
  constructor
  · intro h
    have hg : GoodCfg Sega := by constructor <;> norm_num [Sega]
    have hs := reachable_invShift vtW Sega cf sr bs s hg
      (reachableWC_subset vtW Sega cf sr bs s h)
    refine ⟨hs.lo, ?_⟩
    have := hs.hi
    have hb : (2 : Nat) ^ Sega.LFSRBits = 65536 := by norm_num [Sega]
    omega
  · intro h
    have hg : GoodCfg TI := by constructor <;> norm_num [TI]
    have hs := reachable_invShift vtW TI cf sr bs s hg
      (reachableWC_subset vtW TI cf sr bs s h)
    refine ⟨hs.lo, ?_⟩
    have := hs.hi
    have hb : (2 : Nat) ^ TI.LFSRBits = 32768 := by norm_num [TI]
    omega

/-- C4 witness: the bounds at the initial states of both variants. -/
theorem c4_lfsr_bounds_witness :
    (1 ≤ (New 3579545 48000 800 Sega).noiseShift ∧
      (New 3579545 48000 800 Sega).noiseShift ≤ 0xFFFF) ∧
    (1 ≤ (New 3579545 48000 800 TI).noiseShift ∧
      (New 3579545 48000 800 TI).noiseShift ≤ 0x7FFF) :=
  ⟨(c4_lfsr_bounds 3579545 48000 800 (New 3579545 48000 800 Sega)).1 ReachableWC.base,
   (c4_lfsr_bounds 3579545 48000 800 (New 3579545 48000 800 TI)).2 ReachableWC.base⟩

/-- C8 counterexample: after loading tone register 0 with `0x3FF`,
ticking once (counter reloads to `0x3FF`), and writing the low nibble back
to 0, the counter `0x3FF` exceeds `max(toneReg[0], tone_zero_value) =
max(0x3F0, 1)`, refuting `counter ≤ max(reg, tone_zero_value)` as a state
invariant. -/
theorem c8_counterexample :
    c8S.toneCounter.getD 0 0 = 0x3FF ∧
    c8S.toneReg.getD 0 0 = 0x3F0 ∧
    c8S.toneZeroValue = 1 ∧
    ¬(c8S.toneCounter.getD 0 0 ≤ max (c8S.toneReg.getD 0 0) c8S.toneZeroValue) := by
  decide

/-- C8 amended: on every reachable state the tone counters are bounded by
`max 0x3FF tone_zero_value` (the largest value any reload can install; the
claimed per-channel bound `max(toneReg[i], tone_zero_value)` can be
exceeded transiently right after a write lowers the register), and the
tone registers always stay within 10 bits — in particular after every
`Write`. -/
theorem c8_tone_bounds_amended (vt : Nat → ℚ) (cfg : Config) (cf sr bs : Nat) (s : SN76489)
    (h : Reachable vt cfg cf sr bs s) :
    (∀ i, s.toneCounter.getD i 0 ≤ max 0x3FF s.toneZeroValue) ∧
    (∀ i, s.toneReg.getD i 0 ≤ 0x3FF) := by
  have hb := reachable_invB vt cfg cf sr bs s h
  exact ⟨hb.ctrBound, hb.regBound⟩

/-- C8 witness: the amended bounds at a freshly constructed Sega engine. -/
theorem c8_tone_bounds_amended_witness :
    (∀ i, (New 3579545 48000 800 Sega).toneCounter.getD i 0 ≤
      max 0x3FF (New 3579545 48000 800 Sega).toneZeroValue) ∧
    (∀ i, (New 3579545 48000 800 Sega).toneReg.getD i 0 ≤ 0x3FF) :=
  c8_tone_bounds_amended vtW Sega 3579545 48000 800 _ Reachable.base

/-- C9: on every state reachable without `Deserialize`, all four channel
volumes are at most 15, so the `volumeTable[volume[ch]]` lookups done by
`Sample` and `Run` index the 16-entry table in bounds and cannot panic. -/
theorem c9_volume_in_bounds (vt : Nat → ℚ) (cfg : Config) (cf sr bs : Nat) (s : SN76489)
    (h : Reachable vt cfg cf sr bs s) : ∀ ch, s.volume.getD ch 0 < 16 := by
  have hb := reachable_invB vt cfg cf sr bs s h
  intro ch
  have := hb.volBound ch
  omega

/-- C9 witness: the volume bounds at a freshly constructed Sega engine. -/
theorem c9_volume_in_bounds_witness :
    (New 3579545 48000 800 Sega).volume.getD 0 0 < 16 ∧
    (New 3579545 48000 800 Sega).volume.getD 3 0 < 16 :=
  ⟨c9_volume_in_bounds vtW Sega 3579545 48000 800 _ Reachable.base 0,
   c9_volume_in_bounds vtW Sega 3579545 48000 800 _ Reachable.base 3⟩

/-- C6: a latch/data byte `1CCTDDDD` sets the latch to `(CC, T)` and
updates exactly one of `volume[CC]` (T = 1), the low nibble of
`toneReg[CC]` (T = 0, CC < 3), or `noiseReg` (T = 0, CC = 3), leaving the
other two register kinds unchanged. -/
theorem c6_latch_write (s : SN76489) (w : Nat) (h1 : 128 ≤ w) (h2 : w < 256) :
    ((Write s w).latchedChannel = w >>> 5 &&& 0x03 ∧
      (Write s w).latchedType = w >>> 4 &&& 0x01) ∧
    (w >>> 4 &&& 0x01 = 1 →
      (Write s w).volume = s.volume.set (w >>> 5 &&& 0x03) (w &&& 0x0F) ∧
      (Write s w).toneReg = s.toneReg ∧ (Write s w).noiseReg = s.noiseReg) ∧
    (w >>> 4 &&& 0x01 = 0 → w >>> 5 &&& 0x03 < 3 →
      (Write s w).toneReg = s.toneReg.set (w >>> 5 &&& 0x03)
        ((s.toneReg.getD (w >>> 5 &&& 0x03) 0 &&& 0x3F0) ||| (w &&& 0x0F)) ∧
      (Write s w).volume = s.volume ∧ (Write s w).noiseReg = s.noiseReg) ∧
    (w >>> 4 &&& 0x01 = 0 → w >>> 5 &&& 0x03 = 3 →
      (Write s w).noiseReg = (w &&& 0x0F) &&& 0x07 ∧
      (Write s w).volume = s.volume ∧ (Write s w).toneReg = s.toneReg) := by
  have hbit : w &&& 0x80 ≠ 0 := by
    have h7 : w.testBit 7 = true := by
      rw [Nat.testBit_to_div_mod]
      have hd : w / 2 ^ 7 = 1 := by
        have h128 : (2 : Nat) ^ 7 = 128 := by norm_num
        rw [h128]
        omega
      rw [hd]
      rfl
    have ha := Nat.and_two_pow w 7
    rw [h7] at ha
    have h128 : (2 : Nat) ^ 7 = 128 := by norm_num
    rw [h128] at ha
    simp only [Bool.toNat_true, one_mul] at ha
    omega
  simp only [Write]
  rw [if_pos hbit]
  refine ⟨⟨?_, ?_⟩, ?_, ?_, ?_⟩
  · split_ifs <;> rfl
  · split_ifs <;> rfl
  · intro hT
    rw [if_pos hT]
    exact ⟨rfl, rfl, rfl⟩
  · intro hT hCC
    rw [if_neg (by omega), if_pos hCC]
    exact ⟨rfl, rfl, rfl⟩
  · intro hT hCC
    rw [if_neg (by omega), if_neg (by omega)]
    exact ⟨rfl, rfl, rfl⟩

/-- C6 witness: the decoder's effect on a fresh engine for the concrete
latch bytes `0x95` (channel 0 volume write) and `0xE6` (noise control
write). -/
theorem c6_latch_write_witness :
    ((Write (New 1 1 1 Sega) 0x95).latchedChannel = 0x95 >>> 5 &&& 0x03 ∧
      (Write (New 1 1 1 Sega) 0x95).latchedType = 0x95 >>> 4 &&& 0x01) ∧
    (Write (New 1 1 1 Sega) 0x95).volume =
      (New 1 1 1 Sega).volume.set (0x95 >>> 5 &&& 0x03) (0x95 &&& 0x0F) ∧
    (Write (New 1 1 1 Sega) 0xE6).noiseReg = (0xE6 &&& 0x0F) &&& 0x07 ∧
    (Write (New 1 1 1 Sega) 0xE6).toneReg = (New 1 1 1 Sega).toneReg := by
  have ha := c6_latch_write (New 1 1 1 Sega) 0x95 (by norm_num) (by norm_num)
  have hb := c6_latch_write (New 1 1 1 Sega) 0xE6 (by norm_num) (by norm_num)
  exact ⟨ha.1, (ha.2.1 (by decide)).1, (hb.2.2.2 (by decide) (by decide)).1,
    (hb.2.2.2 (by decide) (by decide)).2.2⟩

/-- C7: `Deserialize` fails with the buffer-too-small error exactly when
the input is shorter than 40 bytes, with the unsupported-version error
exactly when the input has at least 40 bytes but its first byte is not 1;
on any error the state is returned unchanged, and on success `bufferPos`
is reset to 0. -/
theorem c7_deserialize_errors (dec : List Nat → ℚ) (s : SN76489) (buf : List Nat) :
    ((Deserialize dec s buf).snd = some SnapErr.bufferTooSmall ↔ buf.length < 40) ∧
    ((Deserialize dec s buf).snd = some SnapErr.unsupportedVersion ↔
      40 ≤ buf.length ∧ buf.getD 0 0 ≠ 1) ∧
    ((Deserialize dec s buf).snd ≠ none → (Deserialize dec s buf).fst = s) ∧
    ((Deserialize dec s buf).snd = none → (Deserialize dec s buf).fst.bufferPos = 0) := by
  simp only [Deserialize]
  split_ifs with hlen hver hdiv
  · refine ⟨by simp [hlen], ?_, fun _ => rfl, by simp⟩
    constructor
    · intro hx
      simp at hx
    · intro hx
      omega
  · refine ⟨?_, ?_, fun _ => rfl, by simp⟩
    · constructor
      · intro hx
        simp at hx
      · intro hx
        exact absurd hx hlen
    · constructor
      · intro _
        exact ⟨by omega, hver⟩
      · intro _
        rfl
  · refine ⟨?_, ?_, by simp, fun _ => rfl⟩
    · constructor
      · intro hx
        simp at hx
      · intro hx
        omega
    · constructor
      · intro hx
        simp at hx
      · intro hx
        exact absurd hx.2 (by simpa using hver)
  · refine ⟨?_, ?_, by simp, fun _ => rfl⟩
    · constructor
      · intro hx
        simp at hx
      · intro hx
        omega
    · constructor
      · intro hx
        simp at hx
      · intro hx
        exact absurd hx.2 (by simpa using hver)

/-- C7 witness: the empty input is rejected as too small with the state
unchanged. -/
theorem c7_deserialize_errors_witness :
    (Deserialize decQ (New 1 1 1 Sega) []).snd = some SnapErr.bufferTooSmall ∧
    (Deserialize decQ (New 1 1 1 Sega) []).fst = New 1 1 1 Sega := by
  have h := c7_deserialize_errors decQ (New 1 1 1 Sega) []
  have h1 : (Deserialize decQ (New 1 1 1 Sega) []).snd = some SnapErr.bufferTooSmall :=
    h.1.mpr (by norm_num)
  exact ⟨h1, h.2.2.1 (by rw [h1]; simp)⟩

/-- C10: `Serialize` writes the same 40 bytes whatever `noiseToggle` is,
and a successful `Deserialize` leaves `noiseToggle` exactly at its
pre-call value while restoring `noiseReg`, `noiseCounter`, `noiseShift`
and the captured noise output bit from blob offsets 16, 17-18, 19-20
and 21. -/
theorem c10_noise_toggle_not_serialized (enc : ℚ → List Nat) (dec : List Nat → ℚ)
    (s : SN76489) (b : Bool) (buf : List Nat)
    (h : (Deserialize dec s buf).snd = none) :
    Serialize enc { s with noiseToggle := b } = Serialize enc s ∧
    (Deserialize dec s buf).fst.noiseToggle = s.noiseToggle ∧
    (Deserialize dec s buf).fst.noiseReg = buf.getD 16 0 ∧
    (Deserialize dec s buf).fst.noiseCounter = buf.getD 17 0 + 256 * buf.getD 18 0 ∧
    (Deserialize dec s buf).fst.noiseShift = buf.getD 19 0 + 256 * buf.getD 20 0 ∧
    (Deserialize dec s buf).fst.noiseOut = (buf.getD 21 0 != 0) := by
  simp only [Deserialize] at h ⊢
  split_ifs at h ⊢ with hlen hver hdiv
  · exact ⟨rfl, rfl, rfl, rfl, rfl, rfl⟩
  · exact ⟨rfl, rfl, rfl, rfl, rfl, rfl⟩

/-- C10 witness: a successful load from a valid 40-byte blob on a fresh
engine. -/
theorem c10_noise_toggle_not_serialized_witness :
    Serialize encQ { New 1 1 1 Sega with noiseToggle := true } =
      Serialize encQ (New 1 1 1 Sega) ∧
    (Deserialize decQ (New 1 1 1 Sega) (1 :: List.replicate 39 0)).fst.noiseToggle =
      (New 1 1 1 Sega).noiseToggle ∧
    (Deserialize decQ (New 1 1 1 Sega) (1 :: List.replicate 39 0)).fst.noiseReg =
      (1 :: List.replicate 39 0).getD 16 0 ∧
    (Deserialize decQ (New 1 1 1 Sega) (1 :: List.replicate 39 0)).fst.noiseCounter =
      (1 :: List.replicate 39 0).getD 17 0 + 256 * (1 :: List.replicate 39 0).getD 18 0 ∧
    (Deserialize decQ (New 1 1 1 Sega) (1 :: List.replicate 39 0)).fst.noiseShift =
      (1 :: List.replicate 39 0).getD 19 0 + 256 * (1 :: List.replicate 39 0).getD 20 0 ∧
    (Deserialize decQ (New 1 1 1 Sega) (1 :: List.replicate 39 0)).fst.noiseOut =
      ((1 :: List.replicate 39 0).getD 21 0 != 0) :=
  c10_noise_toggle_not_serialized encQ decQ (New 1 1 1 Sega) true (1 :: List.replicate 39 0)
    (by decide)

/-- `Write` does not touch the resampler, gain, or buffer fields. -/
theorem write_frame (s : SN76489) (b : Nat) :
    (Write s b).clockCounter = s.clockCounter ∧ (Write s b).bufferPos = s.bufferPos ∧
    (Write s b).gain = s.gain ∧ (Write s b).clocksPerSample = s.clocksPerSample ∧
    (Write s b).channelBuffers = s.channelBuffers ∧ (Write s b).bufferSize = s.bufferSize := by
  simp only [Write]
  split_ifs <;> exact ⟨rfl, rfl, rfl, rfl, rfl, rfl⟩

/-- `clockTone` does not touch the resampler, gain, or buffer fields. -/
theorem clockTone_frame (i : Nat) (s : SN76489) :
    (clockTone i s).clockCounter = s.clockCounter ∧ (clockTone i s).bufferPos = s.bufferPos ∧
    (clockTone i s).gain = s.gain ∧ (clockTone i s).clocksPerSample = s.clocksPerSample ∧
    (clockTone i s).channelBuffers = s.channelBuffers ∧
    (clockTone i s).bufferSize = s.bufferSize := by
  simp only [clockTone]
  split_ifs <;> exact ⟨rfl, rfl, rfl, rfl, rfl, rfl⟩

/-- `clockNoise` does not touch the resampler, gain, or buffer fields. -/
theorem clockNoise_frame (s : SN76489) :
    (clockNoise s).clockCounter = s.clockCounter ∧ (clockNoise s).bufferPos = s.bufferPos ∧
    (clockNoise s).gain = s.gain ∧ (clockNoise s).clocksPerSample = s.clocksPerSample ∧
    (clockNoise s).channelBuffers = s.channelBuffers ∧
    (clockNoise s).bufferSize = s.bufferSize := by
  simp only [clockNoise]
  split_ifs <;> exact ⟨rfl, rfl, rfl, rfl, rfl, rfl⟩

/-- `Clock` does not touch the resampler, gain, or buffer fields. -/
theorem clock_frame (s : SN76489) :
    (Clock s).clockCounter = s.clockCounter ∧ (Clock s).bufferPos = s.bufferPos ∧
    (Clock s).gain = s.gain ∧ (Clock s).clocksPerSample = s.clocksPerSample ∧
    (Clock s).channelBuffers = s.channelBuffers ∧ (Clock s).bufferSize = s.bufferSize := by
  simp only [Clock]
  split_ifs
  · exact ⟨rfl, rfl, rfl, rfl, rfl, rfl⟩
  · have h0 := clockTone_frame 0 ({ s with clockDivider := 0 } : SN76489)
    have h1 := clockTone_frame 1 (clockTone 0 { s with clockDivider := 0 })
    have h2 := clockTone_frame 2 (clockTone 1 (clockTone 0 { s with clockDivider := 0 }))
    have h3 := clockNoise_frame (clockTone 2 (clockTone 1 (clockTone 0 { s with clockDivider := 0 })))
    exact
      ⟨h3.1.trans (h2.1.trans (h1.1.trans h0.1)),
       h3.2.1.trans (h2.2.1.trans (h1.2.1.trans h0.2.1)),
       h3.2.2.1.trans (h2.2.2.1.trans (h1.2.2.1.trans h0.2.2.1)),
       h3.2.2.2.1.trans (h2.2.2.2.1.trans (h1.2.2.2.1.trans h0.2.2.2.1)),
       h3.2.2.2.2.1.trans (h2.2.2.2.2.1.trans (h1.2.2.2.2.1.trans h0.2.2.2.2.1)),
       h3.2.2.2.2.2.trans (h2.2.2.2.2.2.trans (h1.2.2.2.2.2.trans h0.2.2.2.2.2))⟩

/-- Every state reachable by writes and clocks keeps its resampler,
buffers, and gain in the initial configuration. -/
theorem reachableWC_invWC (cfg : Config) (cf sr bs : Nat) (s : SN76489)
    (h : ReachableWC cfg cf sr bs s) : InvWC cf sr bs s := by
  induction h with
  | base => exact ⟨rfl, rfl, rfl, rfl, rfl, rfl⟩
  | @write t b _ ih =>
    have hf := write_frame t b
    exact
      { cc := hf.1.trans ih.cc, pos := hf.2.1.trans ih.pos
        gainEq := hf.2.2.1.trans ih.gainEq, cps := hf.2.2.2.1.trans ih.cps
        bufs := hf.2.2.2.2.1.trans ih.bufs, size := hf.2.2.2.2.2.trans ih.size }
  | @clock t _ ih =>
    have hf := clock_frame t
    exact
      { cc := hf.1.trans ih.cc, pos := hf.2.1.trans ih.pos
        gainEq := hf.2.2.1.trans ih.gainEq, cps := hf.2.2.2.1.trans ih.cps
        bufs := hf.2.2.2.2.1.trans ih.bufs, size := hf.2.2.2.2.2.trans ih.size }
  | reset _ ih =>
    exact
      { cc := rfl, pos := rfl
        gainEq := ih.gainEq, cps := ih.cps
        bufs := ih.bufs, size := ih.size }

/-- A list of length 3 is a literal triple of its `getD` values. -/
theorem len3_ex (l : List α) (h : l.length = 3) : ∃ a b c, l = [a, b, c] := by
  match l with
  | [a, b, c] => exact ⟨a, b, c, rfl⟩
  | [] => simp at h
  | [a] => simp at h
  | [a, b] => simp at h
  | a :: b :: c :: d :: t => simp at h

/-- A list of length 4 is a literal quadruple. -/
theorem len4_ex (l : List α) (h : l.length = 4) : ∃ a b c d, l = [a, b, c, d] := by
  match l with
  | [a, b, c, d] => exact ⟨a, b, c, d, rfl⟩
  | [] => simp at h
  | [a] => simp at h
  | [a, b] => simp at h
  | [a, b, c] => simp at h
  | a :: b :: c :: d :: e :: t => simp at h

/-- A list of length 8 is a literal octuple. -/
theorem len8_ex (l : List α) (h : l.length = 8) :
    ∃ a b c d e f g f8, l = [a, b, c, d, e, f, g, f8] := by
  match l with
  | [a, b, c, d, e, f, g, f8] => exact ⟨a, b, c, d, e, f, g, f8, rfl⟩
  | [] => simp at h
  | [a] => simp at h
  | [a, b] => simp at h
  | [a, b, c] => simp at h
  | [a, b, c, d] => simp at h
  | [a, b, c, d, e] => simp at h
  | [a, b, c, d, e, f] => simp at h
  | [a, b, c, d, e, f, g] => simp at h
  | a :: b :: c :: d :: e :: f :: g :: f8 :: i :: t => simp at h

/-- Little-endian `uint16` byte round trip. -/
theorem u16_roundtrip (x : Nat) (h : x < 65536) : x % 256 + 256 * (x / 256 % 256) = x := by
  omega

/-- `boolByte` round trip. -/
theorem boolByte_roundtrip (b : Bool) : (boolByte b != 0) = b := by
  cases b <;> rfl

attribute [ext] SN76489

/-- `Deserialize` on an explicit 40-entry version-1 buffer, reduced to
its field assignments. -/
theorem deserialize40 (dec : List Nat → ℚ) (s : SN76489) (x1 x2 x3 x4 x5 x6 x7 x8 x9 x10 x11 x12 x13 x14 x15 x16 x17 x18 x19 x20 x21 x22 x23 x24 x25 x26 x27 x28 x29 x30 x31 x32 x33 x34 x35 x36 x37 x38 x39 : Nat) :
    Deserialize dec s (1 :: x1 :: x2 :: x3 :: x4 :: x5 :: x6 :: x7 :: x8 :: x9 :: x10 :: x11 :: x12 :: x13 :: x14 :: x15 :: x16 :: x17 :: x18 :: x19 :: x20 :: x21 :: x22 :: x23 :: x24 :: x25 :: x26 :: x27 :: x28 :: x29 :: x30 :: x31 :: x32 :: x33 :: x34 :: x35 :: x36 :: x37 :: x38 :: x39 :: []) =
      ({ s with
          toneReg := [x1 + 256 * x2, x3 + 256 * x4, x5 + 256 * x6]
          toneCounter := [x7 + 256 * x8, x9 + 256 * x10, x11 + 256 * x12]
          toneOutput := [x13 != 0, x14 != 0, x15 != 0]
          noiseReg := x16
          noiseCounter := x17 + 256 * x18
          noiseShift := x19 + 256 * x20
          noiseOut := x21 != 0
          volume := [x22, x23, x24, x25]
          latchedChannel := x26
          latchedType := x27
          clockDivider := if x28 + 256 * x29 + 65536 * x30 + 16777216 * x31 < 2147483648 then
              ((x28 + 256 * x29 + 65536 * x30 + 16777216 * x31 : Nat) : Int)
            else ((x28 + 256 * x29 + 65536 * x30 + 16777216 * x31 : Nat) : Int) - 4294967296
          clockCounter := dec [x32, x33, x34, x35, x36, x37, x38, x39]
          bufferPos := 0 }, none) := rfl

/-- Loading the snapshot of a write/clock-reachable state into a fresh
engine with the same construction parameters reproduces the state
exactly, except that `noiseToggle` (absent from the 40-byte blob) is the
fresh engine's `false`. -/
theorem roundtrip_eq (cfg : Config) (cf sr bs : Nat)
    (enc : ℚ → List Nat) (dec : List Nat → ℚ)
    (hcodec : ∀ x, dec (enc x) = x) (hlen8 : ∀ x, (enc x).length = 8)
    (s : SN76489) (hbits : cfg.LFSRBits ≤ 16)
    (hB : InvB s) (hC : InvCfg cfg s) (hS : InvShift cfg s) (hW : InvWC cf sr bs s) :
    Deserialize dec (New cf sr bs cfg) (Serialize enc s) =
      ({ s with noiseToggle := false }, none) := by
  have h2b : (2 : Nat) ^ cfg.LFSRBits ≤ 65536 := by
    calc (2 : Nat) ^ cfg.LFSRBits ≤ 2 ^ 16 := Nat.pow_le_pow_right (by norm_num) hbits
    _ = 65536 := by norm_num
  obtain ⟨tr, tc, tout, nr, nc, ns, ntg, nout, vol, lc, lt, fbv, li, tapsv, tzv, cpsv, ccv,
    cdv, gv, cbv, bpv, bsv⟩ := s
  obtain ⟨r0, r1, r2, hr⟩ := len3_ex tr hB.regLen
  obtain ⟨c0, c1, c2, hc⟩ := len3_ex tc hB.ctrLen
  obtain ⟨o0, o1, o2, ho⟩ := len3_ex tout hB.outLen
  obtain ⟨v0, v1, v2, v3, hv⟩ := len4_ex vol hB.volLen
  subst hr hc ho hv
  have htzv : tzv ≤ 1024 := by
    have := hC.tzv
    simp only at this
    rw [this]
    split_ifs <;> norm_num
  have hr0 : r0 ≤ 0x3FF := hB.regBound 0
  have hr1 : r1 ≤ 0x3FF := hB.regBound 1
  have hr2 : r2 ≤ 0x3FF := hB.regBound 2
  have hc0 : c0 ≤ max 0x3FF tzv := hB.ctrBound 0
  have hc1 : c1 ≤ max 0x3FF tzv := hB.ctrBound 1
  have hc2 : c2 ≤ max 0x3FF tzv := hB.ctrBound 2
  have hmb : max 0x3FF tzv ≤ 1024 := max_le (by norm_num) htzv
  have hnc : nc ≤ max 0x3FF tzv := hB.nctrBound
  have hns : ns < 65536 := lt_of_lt_of_le hS.hi h2b
  have hdlo : (0 : Int) ≤ cdv := hB.divLo
  have hdhi : cdv < 16 := hB.divHi
  obtain ⟨e0, e1, e2, e3, e4, e5, e6, e7, he⟩ := len8_ex (enc ccv) (hlen8 ccv)
  simp only [Serialize]
  rw [he]
  simp only [u16le, u32le, List.cons_append, List.nil_append, List.append_assoc]
  rw [deserialize40]
  refine Prod.ext ?_ ?_
  · refine SN76489.ext ?_ ?_ ?_ ?_ ?_ ?_ ?_ ?_ ?_ ?_ ?_ ?_ ?_ ?_ ?_ ?_ ?_ ?_ ?_ ?_ ?_ ?_
    · show [r0 % 256 + 256 * (r0 / 256 % 256), r1 % 256 + 256 * (r1 / 256 % 256),
        r2 % 256 + 256 * (r2 / 256 % 256)] = [r0, r1, r2]
      rw [u16_roundtrip r0 (by omega), u16_roundtrip r1 (by omega), u16_roundtrip r2 (by omega)]
    · show [c0 % 256 + 256 * (c0 / 256 % 256), c1 % 256 + 256 * (c1 / 256 % 256),
        c2 % 256 + 256 * (c2 / 256 % 256)] = [c0, c1, c2]
      rw [u16_roundtrip c0 (by omega), u16_roundtrip c1 (by omega), u16_roundtrip c2 (by omega)]
    · show [boolByte o0 != 0, boolByte o1 != 0, boolByte o2 != 0] = [o0, o1, o2]
      rw [boolByte_roundtrip, boolByte_roundtrip, boolByte_roundtrip]
    · show nr = nr
      rfl
    · show nc % 256 + 256 * (nc / 256 % 256) = nc
      exact u16_roundtrip nc (by omega)
    · show ns % 256 + 256 * (ns / 256 % 256) = ns
      exact u16_roundtrip ns (by omega)
    · show false = false
      rfl
    · show (boolByte nout != 0) = nout
      exact boolByte_roundtrip nout
    · show [v0, v1, v2, v3] = [v0, v1, v2, v3]
      rfl
    · show lc = lc
      rfl
    · show lt = lt
      rfl
    · show cfg.LFSRBits - 1 = fbv
      exact hC.fb.symm
    · show 1 <<< (cfg.LFSRBits - 1) = li
      rw [Nat.one_shiftLeft]
      exact hC.initShift.symm
    · show cfg.WhiteNoiseTaps = tapsv
      exact hC.taps.symm
    · show (if cfg.toneZero = ToneZero.as1024 then 1024 else 1) = tzv
      exact hC.tzv.symm
    · show mkRat cf sr = cpsv
      exact hW.cps.symm
    · show dec [e0, e1, e2, e3, e4, e5, e6, e7] = ccv
      rw [← he]
      exact hcodec ccv
    · show (if (cdv % 4294967296).toNat % 256 +
          256 * ((cdv % 4294967296).toNat / 256 % 256) +
          65536 * ((cdv % 4294967296).toNat / 65536 % 256) +
          16777216 * ((cdv % 4294967296).toNat / 16777216 % 256) < 2147483648 then
          (((cdv % 4294967296).toNat % 256 +
            256 * ((cdv % 4294967296).toNat / 256 % 256) +
            65536 * ((cdv % 4294967296).toNat / 65536 % 256) +
            16777216 * ((cdv % 4294967296).toNat / 16777216 % 256) : Nat) : Int)
        else (((cdv % 4294967296).toNat % 256 +
            256 * ((cdv % 4294967296).toNat / 256 % 256) +
            65536 * ((cdv % 4294967296).toNat / 65536 % 256) +
            16777216 * ((cdv % 4294967296).toNat / 16777216 % 256) : Nat) : Int) -
          4294967296) = cdv
      split_ifs with hx
      · omega
      · omega
    · show mkRat 1 4 = gv
      exact hW.gainEq.symm
    · show [List.replicate bs 0, List.replicate bs 0, List.replicate bs 0,
        List.replicate bs 0] = cbv
      exact hW.bufs.symm
    · show 0 = bpv
      exact hW.pos.symm
    · show bs = bsv
      exact hW.size.symm
  · show (none : Option SnapErr) = none
    rfl

/-- The concrete clock-counter codec round-trips: `decQ` inverts `encQ`,
as `math.Float64frombits` inverts `math.Float64bits` in the source. -/
theorem decQ_encQ (x : ℚ) : decQ (encQ x) = x := by
  rcases lt_or_le x.num 0 with h | h
  · have h1 : (x.num.natAbs : Int) = -x.num := Int.ofNat_natAbs_of_nonpos (le_of_lt h)
    simp [decQ, encQ, h, h1, Rat.mkRat_self]
  · have h1 : (x.num.natAbs : Int) = x.num := Int.natAbs_of_nonneg h
    have h2 : ¬ x.num < 0 := not_lt.mpr h
    simp [decQ, encQ, h2, h1, Rat.mkRat_self]

/-- C1 (amended).  For every state reached from `New` by `Write`/`Clock`
(/`Reset`) calls whose half-rate noise toggle flag is `false`,
serializing and loading the blob into a fresh engine with the same
construction parameters succeeds and reproduces the state exactly, so
any fixed script of `Clock`/`Write`/`Run` calls afterwards produces
identical states and, in particular, identical per-channel sample
buffers.  (The toggle flag is not part of the 40-byte snapshot, so the
restriction on it cannot be dropped: see the C1 counterexample.) -/
theorem c1_roundtrip_amended (cfg : Config) (cf sr bs : Nat)
    (enc : ℚ → List Nat) (dec : List Nat → ℚ)
    (hcodec : ∀ x, dec (enc x) = x) (hlen8 : ∀ x, (enc x).length = 8)
    (hg : GoodCfg cfg) (hbits : cfg.LFSRBits ≤ 16)
    (s : SN76489) (hs : ReachableWC cfg cf sr bs s) (htg : s.noiseToggle = false)
    (vt : Nat → ℚ) (script : List ScriptOp) :
    (Deserialize dec (New cf sr bs cfg) (Serialize enc s)).snd = none ∧
    runScript vt script (Deserialize dec (New cf sr bs cfg) (Serialize enc s)).fst =
      runScript vt script s ∧
    ∀ ch,
      (runScript vt script
        (Deserialize dec (New cf sr bs cfg) (Serialize enc s)).fst).channelBuffers.getD ch [] =
      (runScript vt script s).channelBuffers.getD ch [] := by
  have hR := reachableWC_subset vt cfg cf sr bs s hs
  have hB := reachable_invB vt cfg cf sr bs s hR
  have hC := reachable_invCfg vt cfg cf sr bs s hR
  have hS := reachable_invShift vt cfg cf sr bs s hg hR
  have hW := reachableWC_invWC cfg cf sr bs s hs
  have h := roundtrip_eq cfg cf sr bs enc dec hcodec hlen8 s hbits hB hC hS hW
  have hst : ({ s with noiseToggle := false } : SN76489) = s := by
    obtain ⟨tr, tc, tout, nr, nc, nsh, ntg, nout, vol, lc, lt, fbv, li, tapsv, tzv, cpsv,
      ccv, cdv, gv, cbv, bpv, bsv⟩ := s
    have hntg : ntg = false := htg
    subst hntg
    rfl
  rw [h, hst]
  exact ⟨rfl, rfl, fun ch => rfl⟩

/-- Concrete instance of the amended C1 round trip: a fresh Sega-variant
engine, serialized and reloaded, replays a `Run` script identically. -/
theorem c1_roundtrip_amended_witness :
    (Deserialize decQ (New 16 1 2 Sega) (Serialize encQ (New 16 1 2 Sega))).snd = none ∧
    runScript vtW [ScriptOp.runOp 2]
        (Deserialize decQ (New 16 1 2 Sega) (Serialize encQ (New 16 1 2 Sega))).fst =
      runScript vtW [ScriptOp.runOp 2] (New 16 1 2 Sega) ∧
    ∀ ch,
      (runScript vtW [ScriptOp.runOp 2]
        (Deserialize decQ (New 16 1 2 Sega)
          (Serialize encQ (New 16 1 2 Sega))).fst).channelBuffers.getD ch [] =
      (runScript vtW [ScriptOp.runOp 2] (New 16 1 2 Sega)).channelBuffers.getD ch [] :=
  c1_roundtrip_amended Sega 16 1 2 encQ decQ decQ_encQ (fun x => rfl)
    ⟨by decide, by decide⟩ (by decide) (New 16 1 2 Sega) ReachableWC.base rfl
    vtW [ScriptOp.runOp 2]

end Chip
